import Mathlib

/-!
# TimedRobot and SelectCommand

A shallow embedding of `TimedRobot::StartCompetition` / `TimedRobot::UpdateAlarm`
(wpilibc, `TimedRobot.cpp`) and of `frc2::SelectCommand` (`SelectCommand.h`),
with the properties proved about them.

Conventions of the embedding.
* `units::second_t` values are IEEE 754 doubles: each sum and product is the
  exact result rounded to nearest, ties to even.
* Code that is called but lives outside the translated files (the HAL, the
  clock, `RobotInit`, `LoopFunc`, the `wpi_setErrorWithContext` macro, the
  commands held by a `SelectCommand`) is a parameter acting on an abstract
  world `W`.
* Every call on a collaborator is appended to a trace, in program order.
-/

set_option linter.unusedSectionVars false

namespace frc

/-- The values of a C++ `double` (IEEE 754 binary64), up to the sign of zero:
`finite q` is the double whose value is the rational `q`. -/
inductive Double where
  | finite (q : ℚ)
  | posInf
  | negInf
  | nan
  deriving DecidableEq

/-- The integer nearest to `n / d`, the even one of the two when `n / d` lies
half way (`d` positive). -/
def roundEven (n d : Nat) : Nat :=
  let q := n / d
  let r := n % d
  if 2 * r < d then q
  else if d < 2 * r then q + 1
  else if q % 2 = 0 then q else q + 1

/-- The number of binary digits of `n`, for `n ≤ fuel`. -/
def binaryDigits : Nat → Nat → Nat
  | 0, _ => 0
  | fuel + 1, n => if n = 0 then 0 else binaryDigits fuel (n / 2) + 1

/-- The exponent `e` with `2^e ≤ n / d < 2^(e+1)` (`n` and `d` positive). -/
def binaryExponent (n d : Nat) : Int :=
  let a := binaryDigits n n - 1
  let b := binaryDigits d d - 1
  if b ≤ a then
    if d * 2 ^ (a - b) ≤ n then ((a - b : Nat) : Int) else ((a - b : Nat) : Int) - 1
  else
    if d ≤ n * 2 ^ (b - a) then - ((b - a : Nat) : Int) else - ((b - a : Nat) : Int) - 1

/-- Rounding of an exact result to binary64, in the default mode (to nearest,
ties to even): 53 significant bits, exponents from -1022 (below that the spacing
stays `2^(-1074)`: subnormal numbers), and an infinity once the rounded
magnitude reaches `2^1024`. -/
def roundDouble (x : ℚ) : Double :=
  if x = 0 then Double.finite 0
  else
    let n := x.num.natAbs
    let d := x.den
    let e := max (binaryExponent n d) (-1022)
    let k := e - 52
    let m := if 0 ≤ k then roundEven n (d * 2 ^ k.toNat) else roundEven (n * 2 ^ (-k).toNat) d
    let magnitude : ℚ :=
      if 0 ≤ k then mkRat ((m * 2 ^ k.toNat : Nat) : Int) 1 else mkRat (m : Int) (2 ^ (-k).toNat)
    if (2 : ℚ) ^ 1024 ≤ magnitude then (if 0 < x then Double.posInf else Double.negInf)
    else Double.finite (if 0 < x then magnitude else -magnitude)

/-- The sum of two doubles (`operator+` of `units::second_t`, which adds the
underlying doubles). -/
def Double.add : Double → Double → Double
  | Double.finite a, Double.finite b => roundDouble (a + b)
  | Double.nan, _ => Double.nan
  | _, Double.nan => Double.nan
  | Double.posInf, Double.negInf => Double.nan
  | Double.negInf, Double.posInf => Double.nan
  | Double.posInf, _ => Double.posInf
  | _, Double.posInf => Double.posInf
  | Double.negInf, _ => Double.negInf
  | _, Double.negInf => Double.negInf

/-- The product of two doubles (`operator*` of a `units::second_t` and a
`double`). -/
def Double.mul : Double → Double → Double
  | Double.finite a, Double.finite b => roundDouble (a * b)
  | Double.nan, _ => Double.nan
  | _, Double.nan => Double.nan
  | Double.posInf, Double.finite b =>
    if b = 0 then Double.nan else if 0 < b then Double.posInf else Double.negInf
  | Double.negInf, Double.finite b =>
    if b = 0 then Double.nan else if 0 < b then Double.negInf else Double.posInf
  | Double.finite a, Double.posInf =>
    if a = 0 then Double.nan else if 0 < a then Double.posInf else Double.negInf
  | Double.finite a, Double.negInf =>
    if a = 0 then Double.nan else if 0 < a then Double.negInf else Double.posInf
  | Double.posInf, Double.posInf => Double.posInf
  | Double.negInf, Double.negInf => Double.posInf
  | Double.posInf, Double.negInf => Double.negInf
  | Double.negInf, Double.posInf => Double.negInf

/-- Calls made by `TimedRobot::StartCompetition`, in program order.
`UpdateAlarm e` records the entry into `TimedRobot::UpdateAlarm` together with
the value `m_expirationTime` holds at that moment. -/
inductive Event where
  | RobotInit
  | HAL_ObserveUserProgramStarting
  | GetFPGATimestamp (t : Double)
  | UpdateAlarm (expirationTime : Double)
  | HAL_UpdateNotifierAlarm (notifier : Int) (triggerTime : Nat) (status : Int)
  | wpi_setErrorWithContext (status : Int)
  | HAL_WaitForNotifierAlarm (notifier : Int) (curTime : Nat) (status : Int)
  | LoopFunc
  deriving DecidableEq

/-- The code `TimedRobot.cpp` calls and does not define. Each entry acts on the
world `W`; those with an out-parameter `status` or a return value give it back
next to the new world. `wpi_setErrorWithContext` receives the status (its second
argument, `HAL_GetErrorMessage(status)`, is a function of the first) and is
taken to return normally. `castOutOfRange` is what the platform gives for
`static_cast<uint64_t>` of a double on which C++ leaves the conversion
undefined. -/
structure Collaborators (W : Type) where
  RobotInit : W → W
  HAL_ObserveUserProgramStarting : W → W
  GetFPGATimestamp : W → Double × W
  HAL_UpdateNotifierAlarm : Int → Nat → W → Int × W
  wpi_setErrorWithContext : Int → W → W
  HAL_WaitForNotifierAlarm : Int → W → (Nat × Int) × W
  LoopFunc : W → W
  castOutOfRange : Double → Nat

/-- The fields of `TimedRobot` that `StartCompetition` reads and writes, the
world its collaborators act on (which `RobotInit` and `LoopFunc` may change at
will; they have no access to the three fields), and the trace of calls. -/
structure TimedRobot (W : Type) where
  m_period : Double
  m_expirationTime : Double
  m_notifier : Int
  world : W
  trace : List Event
  deriving DecidableEq

/-- The conversion `static_cast<uint64_t>(x)` of a double: the fractional part
is dropped (truncation toward zero). C++ defines it when the truncated value is
in `[0, 2^64)`; on any other double the result is `outOfRange x`. -/
def toUInt64 (outOfRange : Double → Nat) : Double → Nat
  | Double.finite x =>
    if 0 ≤ Int.tdiv x.num (x.den : Int) ∧ Int.tdiv x.num (x.den : Int) < 2 ^ 64
    then (Int.tdiv x.num (x.den : Int)).toNat
    else outOfRange (Double.finite x)
  | Double.posInf => outOfRange Double.posInf
  | Double.negInf => outOfRange Double.negInf
  | Double.nan => outOfRange Double.nan

variable {W : Type}

/-- `TimedRobot::UpdateAlarm` (TimedRobot.cpp lines 70-75). The literal `1e6` is
the double 1000000. -/
def TimedRobot.UpdateAlarm (c : Collaborators W) (r : TimedRobot W) : TimedRobot W :=
  let triggerTime :=
    toUInt64 c.castOutOfRange (Double.mul r.m_expirationTime (Double.finite 1000000))
  let res := c.HAL_UpdateNotifierAlarm r.m_notifier triggerTime r.world
  let status := res.1
  { r with
    world := c.wpi_setErrorWithContext status res.2
    trace := r.trace ++ [Event.UpdateAlarm r.m_expirationTime,
      Event.HAL_UpdateNotifierAlarm r.m_notifier triggerTime status,
      Event.wpi_setErrorWithContext status] }

/-- Lines 23-29 of `StartCompetition`: everything before the `while (true)`. -/
def TimedRobot.startup (c : Collaborators W) (r : TimedRobot W) : TimedRobot W :=
  let r1 := { r with world := c.RobotInit r.world, trace := r.trace ++ [Event.RobotInit] }
  let r2 := { r1 with
    world := c.HAL_ObserveUserProgramStarting r1.world
    trace := r1.trace ++ [Event.HAL_ObserveUserProgramStarting] }
  let now := c.GetFPGATimestamp r2.world
  let r3 := { r2 with
    world := now.2
    trace := r2.trace ++ [Event.GetFPGATimestamp now.1]
    m_expirationTime := Double.add now.1 r2.m_period }
  TimedRobot.UpdateAlarm c r3

/-- The test of line 35 on what the wait gave back: `curTime == 0 || status != 0`. -/
def alarmFailed (res : Nat × Int) : Prop := res.1 = 0 ∨ res.2 ≠ 0

instance (res : Nat × Int) : Decidable (alarmFailed res) :=
  inferInstanceAs (Decidable (res.1 = 0 ∨ res.2 ≠ 0))

/-- Lines 33-34: the call `HAL_WaitForNotifierAlarm(m_notifier, &status)`. Gives
`(curTime, status)` and the state after the call. -/
def TimedRobot.waitForAlarm (c : Collaborators W) (r : TimedRobot W) :
    (Nat × Int) × TimedRobot W :=
  let res := c.HAL_WaitForNotifierAlarm r.m_notifier r.world
  (res.1, { r with
    world := res.2
    trace := r.trace ++ [Event.HAL_WaitForNotifierAlarm r.m_notifier res.1.1 res.1.2] })

/-- Lines 37-42: what a pass does once the wait has succeeded. -/
def TimedRobot.tick (c : Collaborators W) (r : TimedRobot W) : TimedRobot W :=
  let r2 := { r with m_expirationTime := Double.add r.m_expirationTime r.m_period }
  let r3 := TimedRobot.UpdateAlarm c r2
  { r3 with world := c.LoopFunc r3.world, trace := r3.trace ++ [Event.LoopFunc] }

/-- One pass through the body of the `while (true)` (lines 33-42). The boolean
is `true` when the pass left the loop through `break`. -/
def TimedRobot.loopBody (c : Collaborators W) (r : TimedRobot W) : Bool × TimedRobot W :=
  let w := TimedRobot.waitForAlarm c r
  if alarmFailed w.1 then (true, w.2) else (false, TimedRobot.tick c w.2)

/-- How a run of the loop bounded by a number of passes ends: `returned r` when
the loop was left (and `StartCompetition` returned) in state `r`; `running r`
when all the passes allowed were made without leaving the loop, `r` being the
state at the head of the loop. -/
inductive Outcome (α : Type) where
  | returned (r : α)
  | running (r : α)
  deriving DecidableEq

/-- The state an outcome carries. -/
def Outcome.state {α : Type} : Outcome α → α
  | Outcome.returned r => r
  | Outcome.running r => r

/-- The `while (true)` of lines 32-43, making at most `fuel` passes. -/
def TimedRobot.whileTrue (c : Collaborators W) : Nat → TimedRobot W → Outcome (TimedRobot W)
  | 0, r => Outcome.running r
  | fuel + 1, r =>
    match TimedRobot.loopBody c r with
    | (true, r1) => Outcome.returned r1
    | (false, r1) => TimedRobot.whileTrue c fuel r1

/-- `TimedRobot::StartCompetition` (lines 22-44), its loop making at most `fuel`
passes. -/
def TimedRobot.StartCompetition (c : Collaborators W) (fuel : Nat) (r : TimedRobot W) :
    Outcome (TimedRobot W) :=
  TimedRobot.whileTrue c fuel (TimedRobot.startup c r)

/-- The deadlines with which `UpdateAlarm` was entered, oldest first. -/
def armedDeadlines : List Event → List Double
  | [] => []
  | Event.UpdateAlarm e :: t => e :: armedDeadlines t
  | _ :: t => armedDeadlines t

/-- The `(curTime, status)` pairs the alarm waits gave back, oldest first. -/
def waitResults : List Event → List (Nat × Int)
  | [] => []
  | Event.HAL_WaitForNotifierAlarm _ curTime status :: t => (curTime, status) :: waitResults t
  | _ :: t => waitResults t

/-- The trigger times, in microseconds, handed to `HAL_UpdateNotifierAlarm`,
oldest first. -/
def armedMicros : List Event → List Nat
  | [] => []
  | Event.HAL_UpdateNotifierAlarm _ triggerTime _ :: t => triggerTime :: armedMicros t
  | _ :: t => armedMicros t

/-- The clock value `StartCompetition` reads on line 28: the world it is read
from is the one `RobotInit` and `HAL_ObserveUserProgramStarting` left. -/
def clockAfterInit (c : Collaborators W) (r : TimedRobot W) : Double :=
  (c.GetFPGATimestamp (c.HAL_ObserveUserProgramStarting (c.RobotInit r.world))).1

/-- The double reached from `t0` by `k` successive additions of `p`, each sum
rounded: `((t0 + p) + p) + ... + p`. -/
def addPeriods (t0 p : Double) : Nat → Double
  | 0 => t0
  | k + 1 => Double.add (addPeriods t0 p k) p

/-- A collaborator set for examples. The world is the number of alarm waits
made so far; the first `good` waits succeed (the alarm fires every 20000 us),
the later ones give back `failure`; every `HAL_UpdateNotifierAlarm` gives back
`updateStatus`; the clock reads 1/4 s. -/
def demoCollaborators (good : Nat) (failure : Nat × Int) (updateStatus : Int) :
    Collaborators Nat where
  RobotInit := fun w => w
  HAL_ObserveUserProgramStarting := fun w => w
  GetFPGATimestamp := fun w => (Double.finite (1 / 4), w)
  HAL_UpdateNotifierAlarm := fun _ _ w => (updateStatus, w)
  wpi_setErrorWithContext := fun _ w => w
  HAL_WaitForNotifierAlarm := fun _ w =>
    (if w < good then (250000 + 20000 * (w + 1), 0) else failure, w + 1)
  LoopFunc := fun w => w
  castOutOfRange := fun _ => 0

/-- A robot for examples: period 20 ms, as `TimedRobot(0.02)` builds it (the
double nearest to 1/50). -/
def demoRobot : TimedRobot Nat where
  m_period := roundDouble (1 / 50)
  m_expirationTime := Double.finite 0
  m_notifier := 1
  world := 0
  trace := []

/-- What the recording collaborators of the examples keep of each call. -/
structure Recorder where
  waits : Nat
  inits : Nat
  loops : Nat
  armed : List Nat
  errors : List Int
  deriving DecidableEq

/-- A collaborator set for examples in which every call leaves its mark on the
world: the clock reads `clock`, the first `good` waits succeed,
`HAL_UpdateNotifierAlarm` records the trigger time and gives back the status
`armed so far + 1`, `wpi_setErrorWithContext` records the status, `LoopFunc`
counts its calls. -/
def recordingCollaborators (clock : Double) (good : Nat) : Collaborators Recorder where
  RobotInit := fun w => { w with inits := w.inits + 1 }
  HAL_ObserveUserProgramStarting := fun w => w
  GetFPGATimestamp := fun w => (clock, w)
  HAL_UpdateNotifierAlarm := fun _ t w =>
    ((w.armed.length : Int) + 1, { w with armed := w.armed ++ [t] })
  wpi_setErrorWithContext := fun s w => { w with errors := w.errors ++ [s] }
  HAL_WaitForNotifierAlarm := fun _ w =>
    (if w.waits < good then (w.waits + 1, 0) else (0, 0), { w with waits := w.waits + 1 })
  LoopFunc := fun w => { w with loops := w.loops + 1 }
  castOutOfRange := fun _ => 0

/-- A robot over the recording world, with period `period`. -/
def recordingRobot (period : Double) : TimedRobot Recorder where
  m_period := period
  m_expirationTime := Double.finite 0
  m_notifier := 1
  world := { waits := 0, inits := 0, loops := 0, armed := [], errors := [] }
  trace := []

end frc

namespace frc2

/-- The `Command` interface as `SelectCommand.h` uses it. The four lifecycle
operations act on the world `W` (which holds the state of the command objects);
`IsFinished` is not `const` in the source and gives back a new world too. -/
structure Command (W : Type) where
  Initialize : W → W
  Execute : W → W
  End : Bool → W → W
  IsFinished : W → Bool × W
  GetRequirements : Finset Nat
  RunsWhenDisabled : Bool
  IsGrouped : Bool

/-- The values a `Command*` takes in `SelectCommand.h`. -/
inductive CommandPtr (Key : Type) where
  /-- The value `nullptr`. -/
  | null
  /-- The value `find->second.get()`: the command `m_commands` owns under key `k`. -/
  | mapped (k : Key)
  /-- The address of the `n`-th object made by `new PrintCommand(...)`. -/
  | allocated (n : Nat)
  /-- A non-null pointer `m_toRun()` gave back: command number `p` among those
  the `SelectCommand` does not own. -/
  | supplied (p : Nat)
  deriving DecidableEq

/-- Calls made by the member functions of `SelectCommand`, in program order. -/
inductive Event (Key : Type) where
  | m_selector (k : Key)
  | find (k : Key) (found : Bool)
  | m_toRun (p : Option Nat)
  | newPrintCommand (message : String)
  | Initialize (target : CommandPtr Key)
  | Execute (target : CommandPtr Key)
  | End (target : CommandPtr Key) (interrupted : Bool)
  | IsFinished (target : CommandPtr Key) (result : Bool)
  deriving DecidableEq

/-- The command on which an event is a lifecycle call, when it is one. -/
def Event.target {Key : Type} : Event Key → Option (CommandPtr Key)
  | Event.Initialize p => some p
  | Event.Execute p => some p
  | Event.End p _ => some p
  | Event.IsFinished p _ => some p
  | _ => none

/-- Code `SelectCommand.h` uses and does not define: the class `PrintCommand`
(given by what its constructor builds from the message) and the commands that
pointers handed out by `m_toRun` point to. -/
structure Heap (W : Type) where
  PrintCommand : String → Command W
  supplied : Nat → Command W

/-- What lives outside the `SelectCommand` object: the world, the messages of
the `PrintCommand` objects created by `new` so far (object `n` is entry `n`), and
the trace of calls. -/
structure Runtime (Key W : Type) where
  world : W
  printCommands : List String
  trace : List (Event Key)

/-- The data members of `SelectCommand<Key>` (lines 126-130) and the requirement
set it inherits from `CommandBase`. An empty `std::function` is `none`;
`m_selectedCommand`, which has no initialiser, is `none` until it is assigned. -/
structure SelectCommand (Key W : Type) where
  m_commands : List (Key × Command W)
  m_selector : Option (W → Key × W)
  m_toRun : Option (W → Option Nat × W)
  m_selectedCommand : Option (CommandPtr Key)
  m_runsWhenDisabled : Bool
  m_requirements : Finset Nat

/-- How a member function can fail to return. -/
inductive Fault where
  /-- An empty `std::function` was called (`std::bad_function_call`). -/
  | bad_function_call
  /-- The indeterminate `m_selectedCommand` was dereferenced. -/
  | undefined_child
  /-- A null or dangling `m_selectedCommand` was dereferenced. -/
  | invalid_pointer
  deriving DecidableEq

variable {Key W : Type} [DecidableEq Key]

/-- The object a pointer points to. -/
def deref (h : Heap W) (s : SelectCommand Key W) (σ : Runtime Key W) :
    CommandPtr Key → Option (Command W)
  | CommandPtr.null => none
  | CommandPtr.mapped k => s.m_commands.lookup k
  | CommandPtr.allocated n => (σ.printCommands.get? n).map h.PrintCommand
  | CommandPtr.supplied p => some (h.supplied p)

/-- The message of line 139. -/
def keyMissMessage : String :=
  "SelectCommand selector value does not correspond to any command!"

/-- The last statement of `Initialize` (line 146): `m_selectedCommand->Initialize()`. -/
def SelectCommand.initializeSelected (h : Heap W) (s : SelectCommand Key W)
    (σ : Runtime Key W) : Except Fault (SelectCommand Key W × Runtime Key W) :=
  match s.m_selectedCommand with
  | none => Except.error Fault.undefined_child
  | some p =>
    match deref h s σ p with
    | none => Except.error Fault.invalid_pointer
    | some c =>
      Except.ok (s, { σ with world := c.Initialize σ.world, trace := σ.trace ++ [Event.Initialize p] })

/-- `SelectCommand<T>::Initialize` (lines 133-147). -/
def SelectCommand.Initialize (h : Heap W) (s : SelectCommand Key W) (σ : Runtime Key W) :
    Except Fault (SelectCommand Key W × Runtime Key W) :=
  match s.m_selector with
  | some selector =>
    let key := selector σ.world
    let σ1 := { σ with world := key.2, trace := σ.trace ++ [Event.m_selector key.1] }
    match s.m_commands.lookup key.1 with
    | none =>
      Except.ok
        ({ s with m_selectedCommand := some (CommandPtr.allocated σ1.printCommands.length) },
         { σ1 with
           printCommands := σ1.printCommands ++ [keyMissMessage]
           trace := σ1.trace ++ [Event.find key.1 false, Event.newPrintCommand keyMissMessage] })
    | some _ =>
      SelectCommand.initializeSelected h
        { s with m_selectedCommand := some (CommandPtr.mapped key.1) }
        { σ1 with trace := σ1.trace ++ [Event.find key.1 true] }
  | none =>
    match s.m_toRun with
    | none => Except.error Fault.bad_function_call
    | some toRun =>
      let res := toRun σ.world
      let ptr : CommandPtr Key :=
        match res.1 with
        | none => CommandPtr.null
        | some p => CommandPtr.supplied p
      SelectCommand.initializeSelected h
        { s with m_selectedCommand := some ptr }
        { σ with world := res.2, trace := σ.trace ++ [Event.m_toRun res.1] }

/-- `SelectCommand::Execute` (line 110). -/
def SelectCommand.Execute (h : Heap W) (s : SelectCommand Key W) (σ : Runtime Key W) :
    Except Fault (SelectCommand Key W × Runtime Key W) :=
  match s.m_selectedCommand with
  | none => Except.error Fault.undefined_child
  | some p =>
    match deref h s σ p with
    | none => Except.error Fault.invalid_pointer
    | some c =>
      Except.ok (s, { σ with world := c.Execute σ.world, trace := σ.trace ++ [Event.Execute p] })

/-- `SelectCommand::End` (lines 112-114). -/
def SelectCommand.End (h : Heap W) (interrupted : Bool) (s : SelectCommand Key W)
    (σ : Runtime Key W) : Except Fault (SelectCommand Key W × Runtime Key W) :=
  match s.m_selectedCommand with
  | none => Except.error Fault.undefined_child
  | some p =>
    match deref h s σ p with
    | none => Except.error Fault.invalid_pointer
    | some c =>
      Except.ok (s, { σ with
        world := c.End interrupted σ.world
        trace := σ.trace ++ [Event.End p interrupted] })

/-- `SelectCommand::IsFinished` (line 116). -/
def SelectCommand.IsFinished (h : Heap W) (s : SelectCommand Key W) (σ : Runtime Key W) :
    Except Fault (Bool × SelectCommand Key W × Runtime Key W) :=
  match s.m_selectedCommand with
  | none => Except.error Fault.undefined_child
  | some p =>
    match deref h s σ p with
    | none => Except.error Fault.invalid_pointer
    | some c =>
      let res := c.IsFinished σ.world
      Except.ok (res.1, s, { σ with
        world := res.2
        trace := σ.trace ++ [Event.IsFinished p res.1] })

/-- `SelectCommand::RunsWhenDisabled` (line 118). -/
def SelectCommand.RunsWhenDisabled (s : SelectCommand Key W) : Bool :=
  s.m_runsWhenDisabled

/-- The calls a scheduler makes on a command once it has been initialised. -/
inductive Op where
  | Execute
  | End (interrupted : Bool)
  | IsFinished
  deriving DecidableEq

/-- One call on the `SelectCommand`. -/
def SelectCommand.call (h : Heap W) (op : Op) (s : SelectCommand Key W) (σ : Runtime Key W) :
    Except Fault (SelectCommand Key W × Runtime Key W) :=
  match op with
  | Op.Execute => SelectCommand.Execute h s σ
  | Op.End interrupted => SelectCommand.End h interrupted s σ
  | Op.IsFinished =>
    match SelectCommand.IsFinished h s σ with
    | Except.error f => Except.error f
    | Except.ok res => Except.ok res.2

/-- A sequence of calls on the `SelectCommand`, stopping at the first fault. -/
def SelectCommand.calls (h : Heap W) :
    List Op → SelectCommand Key W → Runtime Key W →
      Except Fault (SelectCommand Key W × Runtime Key W)
  | [], s, σ => Except.ok (s, σ)
  | op :: ops, s, σ =>
    match SelectCommand.call h op s σ with
    | Except.error f => Except.error f
    | Except.ok res => SelectCommand.calls h ops res.1 res.2

/-- The same call made on a command `c` directly, through the pointer `p`. -/
def Command.call (c : Command W) (p : CommandPtr Key) (op : Op) (σ : Runtime Key W) :
    Runtime Key W :=
  match op with
  | Op.Execute => { σ with world := c.Execute σ.world, trace := σ.trace ++ [Event.Execute p] }
  | Op.End interrupted =>
    { σ with world := c.End interrupted σ.world, trace := σ.trace ++ [Event.End p interrupted] }
  | Op.IsFinished =>
    { σ with
      world := (c.IsFinished σ.world).2
      trace := σ.trace ++ [Event.IsFinished p (c.IsFinished σ.world).1] }

/-- A sequence of calls made on a command `c` directly. -/
def Command.calls (c : Command W) (p : CommandPtr Key) : List Op → Runtime Key W → Runtime Key W
  | [], σ => σ
  | op :: ops, σ => Command.calls c p ops (Command.call c p op σ)

/-- How many times a trace evaluates the selector or the resolver. -/
def resolutions : List (Event Key) → Nat
  | [] => 0
  | Event.m_selector _ :: t => resolutions t + 1
  | Event.m_toRun _ :: t => resolutions t + 1
  | _ :: t => resolutions t

/-- Modelled from the spec: `CommandGroupBase::RequireUngrouped` (CommandGroupBase.h is
not under src/). A task "grouped ... can never again be scheduled standalone" and
using one is a rejected operation: the check passes exactly when the command is
not grouped. -/
def RequireUngrouped (c : Command W) : Bool := !c.IsGrouped

/-- `std::unordered_map::emplace`: the pair is inserted unless the key is
already there. -/
def emplace (m : List (Key × Command W)) (k : Key) (c : Command W) : List (Key × Command W) :=
  match m.lookup k with
  | some _ => m
  | none => m ++ [(k, c)]

/-- The object before the body of a constructor runs: default member
initialisers only (line 130), no requirement. -/
def SelectCommand.blank (selector : Option (W → Key × W))
    (toRun : Option (W → Option Nat × W)) : SelectCommand Key W where
  m_commands := []
  m_selector := selector
  m_toRun := toRun
  m_selectedCommand := none
  m_runsWhenDisabled := true
  m_requirements := ∅

/-- The keyed constructors (lines 53-74 and 76-91; both run the same two loops,
the first over the vector `foo` it builds from its arguments). -/
def SelectCommand.keyed (selector : Option (W → Key × W)) (commands : List (Key × Command W)) :
    SelectCommand Key W :=
  if commands.all (fun command => RequireUngrouped command.2) then
    commands.foldl
      (fun s command =>
        { s with
          m_requirements := s.m_requirements ∪ command.2.GetRequirements
          m_runsWhenDisabled := s.m_runsWhenDisabled && command.2.RunsWhenDisabled
          m_commands := emplace s.m_commands command.1 command.2 })
      (SelectCommand.blank selector none)
  else SelectCommand.blank selector none

/-- The constructor from a supplier (line 104). -/
def SelectCommand.fromSupplier (toRun : Option (W → Option Nat × W)) : SelectCommand Key W :=
  SelectCommand.blank none toRun

/-- Modelled from the spec: the class `PrintCommand` (PrintCommand.h is not under
src/), the "diagnostic no-op task (logs/reports misconfiguration)". The world is
the console; `Initialize` is the operation that writes the message, the other
operations do nothing and the task reports finished. -/
def PrintCommand (message : String) : Command (List String) where
  Initialize := fun console => console ++ [message]
  Execute := fun console => console
  End := fun _ console => console
  IsFinished := fun console => (true, console)
  GetRequirements := ∅
  RunsWhenDisabled := true
  IsGrouped := false

/-- A command for examples: each lifecycle call writes a line on the console,
and the command finishes once `Execute` has run (the console is not empty). -/
def demoCommand (name : String) : Command (List String) where
  Initialize := fun console => console ++ [name ++ ".Initialize"]
  Execute := fun console => console ++ [name ++ ".Execute"]
  End := fun _ console => console ++ [name ++ ".End"]
  IsFinished := fun console => (!console.isEmpty, console)
  GetRequirements := {name.length}
  RunsWhenDisabled := true
  IsGrouped := false

/-- The heap of the examples. -/
def demoHeap : Heap (List String) where
  PrintCommand := PrintCommand
  supplied := fun _ => demoCommand "Supplied"

/-- The example of the specification: `Select({"fwd": Fwd, "rev": Rev}, selector)`
with a selector that gives `key`. -/
def demoSelect (key : String) : SelectCommand String (List String) :=
  SelectCommand.keyed (some (fun console => (key, console)))
    [("fwd", demoCommand "Fwd"), ("rev", demoCommand "Rev")]

/-- A `SelectCommand` in supplier mode whose supplier gives back `p`. -/
def demoSupplied (p : Option Nat) : SelectCommand String (List String) :=
  SelectCommand.fromSupplier (some (fun console => (p, console)))

/-- The empty runtime: nothing printed, nothing allocated, nothing called. -/
def demoRuntime : Runtime String (List String) where
  world := []
  printCommands := []
  trace := []

/-- The example of the specification with a selector that leaves a mark: it
writes "selector" on the console each time it is evaluated, and gives `key`. -/
def demoSelectLogging (key : String) : SelectCommand String (List String) :=
  SelectCommand.keyed (some (fun console => (key, console ++ ["selector"])))
    [("fwd", demoCommand "Fwd"), ("rev", demoCommand "Rev")]

/-- The union of the requirement sets of the commands held in `m_commands`. -/
def mappingRequirements (s : SelectCommand Key W) : Finset Nat :=
  s.m_commands.foldl (fun acc command => acc ∪ command.2.GetRequirements) ∅

/-- A keyed `SelectCommand` built from two pairs that share the key "fwd": the
command `A` requires subsystem 1, the command `Bb` subsystem 2. -/
def demoDuplicate : SelectCommand String (List String) :=
  SelectCommand.keyed (some (fun console => ("fwd", console)))
    [("fwd", demoCommand "A"), ("fwd", demoCommand "Bb")]

/-- A heap for examples whose supplied commands require subsystem 8 and do not
run when disabled. -/
def demoHeapEnabledOnly : Heap (List String) where
  PrintCommand := PrintCommand
  supplied := fun _ => { demoCommand "Supplied" with RunsWhenDisabled := false }

end frc2

namespace frc

variable {W : Type}

theorem armedDeadlines_append (l1 l2 : List Event) :
    armedDeadlines (l1 ++ l2) = armedDeadlines l1 ++ armedDeadlines l2 := by
  induction l1 with
  | nil => rfl
  | cons e t ih => cases e <;> simp [armedDeadlines, ih]

theorem waitResults_append (l1 l2 : List Event) :
    waitResults (l1 ++ l2) = waitResults l1 ++ waitResults l2 := by
  induction l1 with
  | nil => rfl
  | cons e t ih => cases e <;> simp [waitResults, ih]

theorem whileTrue_add (c : Collaborators W) (m n : Nat) (r : TimedRobot W) :
    TimedRobot.whileTrue c (m + n) r =
      match TimedRobot.whileTrue c m r with
      | Outcome.returned r1 => Outcome.returned r1
      | Outcome.running r1 => TimedRobot.whileTrue c n r1 := by
  induction m generalizing r with
  | zero => simp [TimedRobot.whileTrue]
  | succ m ih =>
    rw [Nat.succ_add]
    simp only [TimedRobot.whileTrue]
    rcases h : TimedRobot.loopBody c r with ⟨b, r1⟩
    cases b <;> simp [ih]

theorem whileTrue_one (c : Collaborators W) (r : TimedRobot W) :
    TimedRobot.whileTrue c 1 r =
      if alarmFailed (TimedRobot.waitForAlarm c r).1
      then Outcome.returned (TimedRobot.waitForAlarm c r).2
      else Outcome.running (TimedRobot.tick c (TimedRobot.waitForAlarm c r).2) := by
  simp only [TimedRobot.whileTrue, TimedRobot.loopBody]
  split_ifs <;> rfl

theorem whileTrue_succ_of_running (c : Collaborators W) (n : Nat) (r r1 : TimedRobot W)
    (h : TimedRobot.whileTrue c n r = Outcome.running r1) :
    TimedRobot.whileTrue c (n + 1) r = TimedRobot.whileTrue c 1 r1 := by
  rw [whileTrue_add, h]

theorem whileTrue_of_returned (c : Collaborators W) (n k : Nat) (r r1 : TimedRobot W)
    (h : TimedRobot.whileTrue c n r = Outcome.returned r1) :
    TimedRobot.whileTrue c (n + k) r = Outcome.returned r1 := by
  rw [whileTrue_add, h]

theorem whileTrue_succ_cases (c : Collaborators W) (n : Nat) (r : TimedRobot W) :
    (∃ r1, TimedRobot.whileTrue c n r = Outcome.returned r1 ∧
        TimedRobot.whileTrue c (n + 1) r = Outcome.returned r1) ∨
    (∃ r1, TimedRobot.whileTrue c n r = Outcome.running r1 ∧
        TimedRobot.whileTrue c (n + 1) r = TimedRobot.whileTrue c 1 r1) := by
  cases h : TimedRobot.whileTrue c n r with
  | returned r1 => exact Or.inl ⟨r1, rfl, whileTrue_of_returned c n 1 r r1 h⟩
  | running r1 => exact Or.inr ⟨r1, rfl, whileTrue_succ_of_running c n r r1 h⟩

theorem running_succ (c : Collaborators W) (n : Nat) (r r2 : TimedRobot W)
    (h : TimedRobot.whileTrue c (n + 1) r = Outcome.running r2) :
    ∃ r1, TimedRobot.whileTrue c n r = Outcome.running r1 ∧
      ¬ alarmFailed (TimedRobot.waitForAlarm c r1).1 ∧
      r2 = TimedRobot.tick c (TimedRobot.waitForAlarm c r1).2 := by
  rcases whileTrue_succ_cases c n r with ⟨r1, _, h2⟩ | ⟨r1, h1, h2⟩
  · rw [h2] at h; cases h
  · refine ⟨r1, h1, ?_⟩
    rw [h2, whileTrue_one] at h
    by_cases hf : alarmFailed (TimedRobot.waitForAlarm c r1).1
    · rw [if_pos hf] at h; cases h
    · rw [if_neg hf] at h
      refine ⟨hf, ?_⟩
      injection h with h
      exact h.symm

/-- What `n` passes that all stay in the loop do to the state. -/
theorem running_state (c : Collaborators W) (n : Nat) (r r2 : TimedRobot W)
    (h : TimedRobot.whileTrue c n r = Outcome.running r2) :
    r2.m_period = r.m_period ∧ r2.m_notifier = r.m_notifier ∧
    r2.m_expirationTime = addPeriods r.m_expirationTime r.m_period n ∧
    armedDeadlines r2.trace = armedDeadlines r.trace ++
      (List.range n).map (fun (j : Nat) => addPeriods r.m_expirationTime r.m_period (j + 1)) ∧
    ∃ ws : List (Nat × Int), waitResults r2.trace = waitResults r.trace ++ ws ∧
      ws.length = n ∧ ∀ x ∈ ws, ¬ alarmFailed x := by
  induction n generalizing r2 with
  | zero =>
    simp only [TimedRobot.whileTrue] at h
    injection h with h
    subst h
    simp [addPeriods]
  | succ n ih =>
    obtain ⟨r1, h1, hok, rfl⟩ := running_succ c n r r2 h
    obtain ⟨hp, hn, he, hd, ws, hw, hlen, hall⟩ := ih r1 h1
    refine ⟨hp, hn, ?_, ?_, ?_⟩
    · simp only [TimedRobot.tick, TimedRobot.UpdateAlarm, TimedRobot.waitForAlarm, he, hp,
        addPeriods]
    · simp only [TimedRobot.tick, TimedRobot.UpdateAlarm, TimedRobot.waitForAlarm,
        armedDeadlines_append, hd, he, hp, List.range_succ, List.map_append]
      simp [armedDeadlines, addPeriods]
    · refine ⟨ws ++ [(TimedRobot.waitForAlarm c r1).1], ?_, ?_, ?_⟩
      · simp only [TimedRobot.tick, TimedRobot.UpdateAlarm, TimedRobot.waitForAlarm,
          waitResults_append, hw]
        simp [waitResults]
      · simp [hlen]
      · intro x hx
        rcases List.mem_append.mp hx with hx | hx
        · exact hall x hx
        · rw [List.mem_singleton.mp hx]; exact hok

theorem startup_fields (c : Collaborators W) (r : TimedRobot W) :
    (TimedRobot.startup c r).m_period = r.m_period ∧
    (TimedRobot.startup c r).m_notifier = r.m_notifier ∧
    (TimedRobot.startup c r).m_expirationTime = Double.add (clockAfterInit c r) r.m_period ∧
    armedDeadlines (TimedRobot.startup c r).trace =
      armedDeadlines r.trace ++ [Double.add (clockAfterInit c r) r.m_period] ∧
    waitResults (TimedRobot.startup c r).trace = waitResults r.trace := by
  refine ⟨rfl, rfl, rfl, ?_, ?_⟩
  · simp [TimedRobot.startup, TimedRobot.UpdateAlarm, armedDeadlines_append, armedDeadlines,
      clockAfterInit]
  · simp [TimedRobot.startup, TimedRobot.UpdateAlarm, waitResults_append, waitResults]

theorem addPeriods_shift (t p : Double) (k : Nat) :
    addPeriods (Double.add t p) p k = addPeriods t p (k + 1) := by
  induction k with
  | zero => rfl
  | succ k ih => simp only [addPeriods, ih]

theorem deadlines_shift (t p : Double) (n : Nat) :
    [Double.add t p] ++
        (List.range n).map (fun (j : Nat) => addPeriods (Double.add t p) p (j + 1)) =
      (List.range (n + 1)).map (fun (j : Nat) => addPeriods t p (j + 1)) := by
  rw [List.range_succ_eq_map]
  simp only [List.map_cons, List.map_map, List.singleton_append]
  congr 1
  apply List.map_congr_left
  intro j _
  simp only [Function.comp, addPeriods_shift]

theorem running_deadlines (c : Collaborators W) (r0 r : TimedRobot W) (K : Nat)
    (h : TimedRobot.StartCompetition c K r0 = Outcome.running r) :
    armedDeadlines r.trace = armedDeadlines r0.trace ++
      (List.range (K + 1)).map
        (fun (j : Nat) => addPeriods (clockAfterInit c r0) r0.m_period (j + 1)) := by
  obtain ⟨sp, _, se, sd, _⟩ := startup_fields c r0
  obtain ⟨_, _, _, hd, _⟩ := running_state c K _ r h
  rw [hd, sd, se, sp, List.append_assoc, deadlines_shift]

/-- When every addition met on the way is exact, so is the result. -/
theorem addPeriods_exact (a b : ℚ) (k : Nat)
    (hex : ∀ j : Nat, j < k →
      Double.add (Double.finite (a + (j : ℚ) * b)) (Double.finite b) =
        Double.finite (a + ((j : ℚ) + 1) * b)) :
    addPeriods (Double.finite a) (Double.finite b) k = Double.finite (a + (k : ℚ) * b) := by
  induction k with
  | zero => simp [addPeriods]
  | succ k ih =>
    rw [addPeriods, ih (fun j hj => hex j (Nat.lt_succ_of_lt hj)), hex k (Nat.lt_succ_self k)]
    push_cast
    rfl

/-- Counterexample to C1 as stated: clock 0.25 s, `TimedRobot(0.02)`, two
successful waits. The deadline then held is the double 0.31000000000000005,
which is neither `t0 + 3p` for the period `p` the robot holds (the double
nearest to 0.02) nor 0.25 + 3 * 0.02. -/
theorem C1_counterexample :
    TimedRobot.StartCompetition (demoCollaborators 2 (0, 0) 0) 2 demoRobot =
      Outcome.running
        (TimedRobot.StartCompetition (demoCollaborators 2 (0, 0) 0) 2 demoRobot).state ∧
    clockAfterInit (demoCollaborators 2 (0, 0) 0) demoRobot = Double.finite (1 / 4) ∧
    demoRobot.m_period = Double.finite (5764607523034235 / 288230376151711744) ∧
    (TimedRobot.StartCompetition (demoCollaborators 2 (0, 0) 0) 2
      demoRobot).state.m_expirationTime =
        Double.finite (698057942242427 / 2251799813685248) ∧
    (698057942242427 / 2251799813685248 : ℚ) ≠
      1 / 4 + (2 + 1) * (5764607523034235 / 288230376151711744) ∧
    (698057942242427 / 2251799813685248 : ℚ) ≠ 1 / 4 + (2 + 1) * (1 / 50) := by
  refine ⟨rfl, rfl, ?_, ?_, ?_, ?_⟩
  · decide!
  · decide!
  · decide!
  · decide!

/-- C1 (amended): when the first `K` alarm waits succeed (`K` passes were made
and the loop is still running), the trace holds exactly `K` waits, all
successful; the deadlines `UpdateAlarm` was entered with are, in order, the
doubles reached from the clock value `t0` read after `RobotInit` by 1, 2, ...,
`K + 1` successive rounded additions of the period `p`; `m_expirationTime` is the
last of them. Nothing else (wait timestamps, `LoopFunc`, alarm statuses) enters
the value. It is `t0 + (K+1)p` when each of those additions is exact. -/
theorem C1_deadline_is_rounded_sum_of_periods (c : Collaborators W) (r0 r : TimedRobot W)
    (K : Nat) (h : TimedRobot.StartCompetition c K r0 = Outcome.running r) :
    r.m_expirationTime = addPeriods (clockAfterInit c r0) r0.m_period (K + 1) ∧
    armedDeadlines r.trace = armedDeadlines r0.trace ++
      (List.range (K + 1)).map
        (fun (j : Nat) => addPeriods (clockAfterInit c r0) r0.m_period (j + 1)) ∧
    (armedDeadlines r.trace).getLast? =
      some (addPeriods (clockAfterInit c r0) r0.m_period (K + 1)) ∧
    (∃ ws : List (Nat × Int), waitResults r.trace = waitResults r0.trace ++ ws ∧
      ws.length = K ∧ ∀ x ∈ ws, x.1 ≠ 0 ∧ x.2 = 0) ∧
    (∀ a b : ℚ, clockAfterInit c r0 = Double.finite a → r0.m_period = Double.finite b →
      (∀ j : Nat, j ≤ K →
        Double.add (Double.finite (a + (j : ℚ) * b)) (Double.finite b) =
          Double.finite (a + ((j : ℚ) + 1) * b)) →
      r.m_expirationTime = Double.finite (a + ((K : ℚ) + 1) * b)) := by
  obtain ⟨sp, _, se, sd, sw⟩ := startup_fields c r0
  obtain ⟨_, _, he, hd, ws, hw, hlen, hall⟩ := running_state c K _ r h
  have hd2 := running_deadlines c r0 r K h
  have hexp : r.m_expirationTime = addPeriods (clockAfterInit c r0) r0.m_period (K + 1) := by
    rw [he, se, sp, addPeriods_shift]
  refine ⟨hexp, hd2, ?_, ⟨ws, ?_, hlen, ?_⟩, ?_⟩
  · rw [hd2, List.range_succ, List.map_append, ← List.append_assoc]
    simp
  · rw [hw, sw]
  · intro x hx
    have := hall x hx
    simp only [alarmFailed, not_or, not_not] at this
    exact this
  · intro a b ha hb hex
    rw [hexp, ha, hb, addPeriods_exact a b (K + 1)
      (fun j hj => hex j (Nat.lt_succ_iff.mp hj))]
    push_cast
    rfl

/-- Witness of C1 (amended): the robot with clock 1/4 s and period 1/64 s after
two successful waits; every sum is exact and the deadline is 1/4 + 3/64 s. -/
theorem C1_witness :
    TimedRobot.StartCompetition (recordingCollaborators (Double.finite (1 / 4)) 2) 2
        (recordingRobot (Double.finite (1 / 64))) =
      Outcome.running
        (TimedRobot.StartCompetition (recordingCollaborators (Double.finite (1 / 4)) 2) 2
          (recordingRobot (Double.finite (1 / 64)))).state ∧
    (TimedRobot.StartCompetition (recordingCollaborators (Double.finite (1 / 4)) 2) 2
        (recordingRobot (Double.finite (1 / 64)))).state.m_expirationTime =
      Double.finite (1 / 4 + (((2 : ℕ) : ℚ) + 1) * (1 / 64)) := by
  have hex : ∀ j : Nat, j ≤ 2 →
      Double.add (Double.finite (1 / 4 + (j : ℚ) * (1 / 64))) (Double.finite (1 / 64)) =
        Double.finite (1 / 4 + ((j : ℚ) + 1) * (1 / 64)) := by
    intro j hj
    interval_cases j <;> decide!
  exact ⟨rfl, (C1_deadline_is_rounded_sum_of_periods
    (recordingCollaborators (Double.finite (1 / 4)) 2)
    (recordingRobot (Double.finite (1 / 64))) _ 2 rfl).2.2.2.2 (1 / 4) (1 / 64) rfl rfl hex⟩

theorem failed_wait_returns (c : Collaborators W) (r0 r : TimedRobot W) (N fuel : Nat)
    (h : TimedRobot.StartCompetition c N r0 = Outcome.running r)
    (hf : alarmFailed (TimedRobot.waitForAlarm c r).1) (hlt : N < fuel) :
    TimedRobot.StartCompetition c fuel r0 =
      Outcome.returned (TimedRobot.waitForAlarm c r).2 := by
  obtain ⟨k, rfl⟩ := Nat.exists_eq_add_of_lt hlt
  unfold TimedRobot.StartCompetition at h ⊢
  have h1 : TimedRobot.whileTrue c (N + 1) (TimedRobot.startup c r0) =
      Outcome.returned (TimedRobot.waitForAlarm c r).2 := by
    rw [whileTrue_succ_of_running c N _ r h, whileTrue_one, if_pos hf]
  have := whileTrue_of_returned c (N + 1) k _ _ h1
  rw [show N + k + 1 = N + 1 + k by ring]
  exact this

theorem good_wait_continues (c : Collaborators W) (r0 r : TimedRobot W) (N : Nat)
    (h : TimedRobot.StartCompetition c N r0 = Outcome.running r)
    (hok : ¬ alarmFailed (TimedRobot.waitForAlarm c r).1) :
    TimedRobot.StartCompetition c (N + 1) r0 =
      Outcome.running (TimedRobot.tick c (TimedRobot.waitForAlarm c r).2) := by
  unfold TimedRobot.StartCompetition at h ⊢
  rw [whileTrue_succ_of_running c N _ r h, whileTrue_one, if_neg hok]

theorem returned_at_failed_wait (c : Collaborators W) (r : TimedRobot W) (fuel : Nat)
    (rf : TimedRobot W) (h : TimedRobot.whileTrue c fuel r = Outcome.returned rf) :
    ∃ N r1, N < fuel ∧ TimedRobot.whileTrue c N r = Outcome.running r1 ∧
      alarmFailed (TimedRobot.waitForAlarm c r1).1 ∧ rf = (TimedRobot.waitForAlarm c r1).2 := by
  induction fuel with
  | zero => simp [TimedRobot.whileTrue] at h
  | succ n ih =>
    rcases whileTrue_succ_cases c n r with ⟨r1, h1, h2⟩ | ⟨r1, h1, h2⟩
    · rw [h2] at h
      injection h with h
      subst h
      obtain ⟨N, r2, hlt, hrun, hf, heq⟩ := ih h1
      exact ⟨N, r2, Nat.lt_succ_of_lt hlt, hrun, hf, heq⟩
    · rw [h2, whileTrue_one] at h
      by_cases hf : alarmFailed (TimedRobot.waitForAlarm c r1).1
      · rw [if_pos hf] at h
        injection h with h
        exact ⟨n, r1, Nat.lt_succ_self n, h1, hf, h.symm⟩
      · rw [if_neg hf] at h; cases h

/-- C2: the loop is left at the first failing wait and nowhere else. (1) When
`N` waits have succeeded and the next one fails (`curTime = 0` or nonzero
status), `StartCompetition` returns for every fuel above `N`, in the state the
failing wait left: `m_expirationTime` unchanged and the trace extended by that
wait alone (no re-arm, no `LoopFunc`). (2) Whenever `StartCompetition` returns,
it is in that way. (3) After a successful wait the loop is still running. -/
theorem C2_loop_left_exactly_at_first_failed_wait (c : Collaborators W) (r0 : TimedRobot W) :
    (∀ (N : Nat) (r : TimedRobot W), TimedRobot.StartCompetition c N r0 = Outcome.running r →
      alarmFailed (TimedRobot.waitForAlarm c r).1 →
        (TimedRobot.waitForAlarm c r).2.m_expirationTime = r.m_expirationTime ∧
        (TimedRobot.waitForAlarm c r).2.trace = r.trace ++
          [Event.HAL_WaitForNotifierAlarm r.m_notifier (TimedRobot.waitForAlarm c r).1.1
            (TimedRobot.waitForAlarm c r).1.2] ∧
        ∀ fuel, N < fuel → TimedRobot.StartCompetition c fuel r0 =
          Outcome.returned (TimedRobot.waitForAlarm c r).2) ∧
    (∀ (fuel : Nat) (rf : TimedRobot W),
      TimedRobot.StartCompetition c fuel r0 = Outcome.returned rf →
        ∃ N r, N < fuel ∧ TimedRobot.StartCompetition c N r0 = Outcome.running r ∧
          alarmFailed (TimedRobot.waitForAlarm c r).1 ∧
          rf = (TimedRobot.waitForAlarm c r).2) ∧
    (∀ (N : Nat) (r : TimedRobot W), TimedRobot.StartCompetition c N r0 = Outcome.running r →
      (TimedRobot.waitForAlarm c r).1.1 ≠ 0 ∧ (TimedRobot.waitForAlarm c r).1.2 = 0 →
        ∃ r1, TimedRobot.StartCompetition c (N + 1) r0 = Outcome.running r1) := by
  refine ⟨?_, ?_, ?_⟩
  · intro N r h hf
    exact ⟨rfl, rfl, fun fuel hlt => failed_wait_returns c r0 r N fuel h hf hlt⟩
  · intro fuel rf h
    exact returned_at_failed_wait c _ fuel rf h
  · intro N r h hok
    refine ⟨_, good_wait_continues c r0 r N h ?_⟩
    simp only [alarmFailed, not_or, not_not]
    exact hok

/-- Witness of C2: the alarm of the example fires twice and then gives back the
sentinel timestamp 0; the third pass returns, and the second wait is followed
by a third pass. -/
theorem C2_witness :
    (TimedRobot.StartCompetition (demoCollaborators 2 (0, 0) 0) 5 demoRobot =
      Outcome.returned (TimedRobot.waitForAlarm (demoCollaborators 2 (0, 0) 0)
        (TimedRobot.StartCompetition (demoCollaborators 2 (0, 0) 0) 2 demoRobot).state).2) ∧
    (∃ r1, TimedRobot.StartCompetition (demoCollaborators 2 (0, 0) 0) (1 + 1) demoRobot =
      Outcome.running r1) :=
  ⟨((C2_loop_left_exactly_at_first_failed_wait (demoCollaborators 2 (0, 0) 0) demoRobot).1
      2 _ rfl (by decide)).2.2 5 (by decide),
   (C2_loop_left_exactly_at_first_failed_wait (demoCollaborators 2 (0, 0) 0) demoRobot).2.2
      1 _ rfl (by decide)⟩

/-- The state a pass reaches after a successful wait, written out. -/
theorem tick_state (c : Collaborators W) (r : TimedRobot W) :
    TimedRobot.tick c (TimedRobot.waitForAlarm c r).2 =
      { m_period := r.m_period
        m_expirationTime := Double.add r.m_expirationTime r.m_period
        m_notifier := r.m_notifier
        world := c.LoopFunc (c.wpi_setErrorWithContext
          (c.HAL_UpdateNotifierAlarm r.m_notifier
            (toUInt64 c.castOutOfRange
              (Double.mul (Double.add r.m_expirationTime r.m_period) (Double.finite 1000000)))
            (c.HAL_WaitForNotifierAlarm r.m_notifier r.world).2).1
          (c.HAL_UpdateNotifierAlarm r.m_notifier
            (toUInt64 c.castOutOfRange
              (Double.mul (Double.add r.m_expirationTime r.m_period) (Double.finite 1000000)))
            (c.HAL_WaitForNotifierAlarm r.m_notifier r.world).2).2)
        trace := r.trace ++
          [Event.HAL_WaitForNotifierAlarm r.m_notifier
            (c.HAL_WaitForNotifierAlarm r.m_notifier r.world).1.1
            (c.HAL_WaitForNotifierAlarm r.m_notifier r.world).1.2,
           Event.UpdateAlarm (Double.add r.m_expirationTime r.m_period),
           Event.HAL_UpdateNotifierAlarm r.m_notifier
            (toUInt64 c.castOutOfRange
              (Double.mul (Double.add r.m_expirationTime r.m_period) (Double.finite 1000000)))
            (c.HAL_UpdateNotifierAlarm r.m_notifier
              (toUInt64 c.castOutOfRange
                (Double.mul (Double.add r.m_expirationTime r.m_period)
                  (Double.finite 1000000)))
              (c.HAL_WaitForNotifierAlarm r.m_notifier r.world).2).1,
           Event.wpi_setErrorWithContext
            (c.HAL_UpdateNotifierAlarm r.m_notifier
              (toUInt64 c.castOutOfRange
                (Double.mul (Double.add r.m_expirationTime r.m_period)
                  (Double.finite 1000000)))
              (c.HAL_WaitForNotifierAlarm r.m_notifier r.world).2).1,
           Event.LoopFunc] } := by
  simp [TimedRobot.tick, TimedRobot.UpdateAlarm, TimedRobot.waitForAlarm]

theorem tick_trace (c : Collaborators W) (r : TimedRobot W) :
    ∃ status : Int, (TimedRobot.tick c (TimedRobot.waitForAlarm c r).2).trace = r.trace ++
      [Event.HAL_WaitForNotifierAlarm r.m_notifier (TimedRobot.waitForAlarm c r).1.1
        (TimedRobot.waitForAlarm c r).1.2,
       Event.UpdateAlarm (Double.add r.m_expirationTime r.m_period),
       Event.HAL_UpdateNotifierAlarm r.m_notifier
        (toUInt64 c.castOutOfRange
          (Double.mul (Double.add r.m_expirationTime r.m_period) (Double.finite 1000000)))
        status,
       Event.wpi_setErrorWithContext status,
       Event.LoopFunc] :=
  ⟨_, by rw [tick_state]; rfl⟩

theorem running_counts (c : Collaborators W) (n : Nat) (r r2 : TimedRobot W)
    (h : TimedRobot.whileTrue c n r = Outcome.running r2) :
    r2.trace.count Event.LoopFunc = r.trace.count Event.LoopFunc + n := by
  induction n generalizing r2 with
  | zero =>
    simp only [TimedRobot.whileTrue] at h
    injection h with h
    subst h
    simp
  | succ n ih =>
    obtain ⟨r1, h1, _, rfl⟩ := running_succ c n r r2 h
    obtain ⟨status, ht⟩ := tick_trace c r1
    rw [ht, List.count_append, ih r1 h1]
    simp [List.count_cons]
    omega

/-- C5: at the head of the loop after `N` successful waits, `LoopFunc` has been
called `N` times and the alarm armed `N + 1` times. If the next wait (giving
`wres` and the world `w1`) succeeds, the pass advances the deadline by one
period, arms the alarm with it (the HAL call, made on `w1`, giving `status` and
the world `w2`), reports `status` and calls `LoopFunc`, each once and in this
order: the state after the pass is the one written out below, whose world is
`LoopFunc` applied to the world the report left, and the loop is running. If the
next wait fails, `StartCompetition` returns in the state that wait left, having
made exactly `N` `LoopFunc` calls and `N + 1` armings. -/
theorem C5_one_advance_one_rearm_one_LoopFunc_per_wait (c : Collaborators W)
    (r0 r : TimedRobot W) (N : Nat)
    (h : TimedRobot.StartCompetition c N r0 = Outcome.running r) :
    (r.trace.count Event.LoopFunc = r0.trace.count Event.LoopFunc + N ∧
      (armedDeadlines r.trace).length = (armedDeadlines r0.trace).length + (N + 1)) ∧
    (∀ (wres : Nat × Int) (w1 w2 : W) (status : Int),
      c.HAL_WaitForNotifierAlarm r.m_notifier r.world = (wres, w1) →
      ¬ alarmFailed wres →
      c.HAL_UpdateNotifierAlarm r.m_notifier
        (toUInt64 c.castOutOfRange
          (Double.mul (Double.add r.m_expirationTime r.m_period) (Double.finite 1000000)))
        w1 = (status, w2) →
      TimedRobot.StartCompetition c (N + 1) r0 = Outcome.running
        { m_period := r.m_period
          m_expirationTime := Double.add r.m_expirationTime r.m_period
          m_notifier := r.m_notifier
          world := c.LoopFunc (c.wpi_setErrorWithContext status w2)
          trace := r.trace ++
            [Event.HAL_WaitForNotifierAlarm r.m_notifier wres.1 wres.2,
             Event.UpdateAlarm (Double.add r.m_expirationTime r.m_period),
             Event.HAL_UpdateNotifierAlarm r.m_notifier
              (toUInt64 c.castOutOfRange
                (Double.mul (Double.add r.m_expirationTime r.m_period)
                  (Double.finite 1000000))) status,
             Event.wpi_setErrorWithContext status,
             Event.LoopFunc] }) ∧
    (∀ (wres : Nat × Int) (w1 : W),
      c.HAL_WaitForNotifierAlarm r.m_notifier r.world = (wres, w1) →
      alarmFailed wres →
      ∀ fuel, N < fuel →
        TimedRobot.StartCompetition c fuel r0 = Outcome.returned
          { m_period := r.m_period
            m_expirationTime := r.m_expirationTime
            m_notifier := r.m_notifier
            world := w1
            trace := r.trace ++ [Event.HAL_WaitForNotifierAlarm r.m_notifier wres.1 wres.2] } ∧
        (r.trace ++ [Event.HAL_WaitForNotifierAlarm r.m_notifier wres.1 wres.2]).count
          Event.LoopFunc = r0.trace.count Event.LoopFunc + N ∧
        (armedDeadlines
          (r.trace ++ [Event.HAL_WaitForNotifierAlarm r.m_notifier wres.1 wres.2])).length =
            (armedDeadlines r0.trace).length + (N + 1)) := by
  have hc : r.trace.count Event.LoopFunc = r0.trace.count Event.LoopFunc + N := by
    rw [running_counts c N _ r h]
    simp [TimedRobot.startup, TimedRobot.UpdateAlarm, List.count_cons]
  have ha : (armedDeadlines r.trace).length = (armedDeadlines r0.trace).length + (N + 1) := by
    rw [(running_deadlines c r0 r N h)]
    simp
  refine ⟨⟨hc, ha⟩, ?_, ?_⟩
  · intro wres w1 w2 status hw hok hu
    have hok2 : ¬ alarmFailed (TimedRobot.waitForAlarm c r).1 := by
      simp only [TimedRobot.waitForAlarm, hw]
      exact hok
    rw [good_wait_continues c r0 r N h hok2, tick_state, hw, hu]
  · intro wres w1 hw hf fuel hlt
    have hf2 : alarmFailed (TimedRobot.waitForAlarm c r).1 := by
      simp only [TimedRobot.waitForAlarm, hw]
      exact hf
    refine ⟨?_, ?_, ?_⟩
    · rw [failed_wait_returns c r0 r N fuel h hf2 hlt]
      simp [TimedRobot.waitForAlarm, hw]
    · simp [List.count_append, List.count_cons, hc]
    · simp [armedDeadlines_append, armedDeadlines, ha]

/-- Witness of C5: in the recording example with clock 1/4 s and period 1/64 s
whose alarm fires twice, the second pass leaves a world in which two waits, two
arming calls after the first one, their reports and two `LoopFunc` calls are
recorded; the third wait fails and the run returns. -/
theorem C5_witness :
    (TimedRobot.StartCompetition (recordingCollaborators (Double.finite (1 / 4)) 2) (1 + 1)
        (recordingRobot (Double.finite (1 / 64)))).state.world =
      { waits := 2, inits := 1, loops := 2, armed := [265625, 281250, 296875],
        errors := [1, 2, 3] } ∧
    (TimedRobot.StartCompetition (recordingCollaborators (Double.finite (1 / 4)) 2) 7
        (recordingRobot (Double.finite (1 / 64)))).state.world =
      { waits := 3, inits := 1, loops := 2, armed := [265625, 281250, 296875],
        errors := [1, 2, 3] } := by
  have h1 := (C5_one_advance_one_rearm_one_LoopFunc_per_wait
    (recordingCollaborators (Double.finite (1 / 4)) 2)
    (recordingRobot (Double.finite (1 / 64))) _ 1 rfl).2.1 _ _ _ _ rfl (by decide) rfl
  have h2 := ((C5_one_advance_one_rearm_one_LoopFunc_per_wait
    (recordingCollaborators (Double.finite (1 / 4)) 2)
    (recordingRobot (Double.finite (1 / 64))) _ 2 rfl).2.2 _ _ rfl (by decide) 7
      (by decide)).1
  constructor
  · rw [h1]
    decide!
  · rw [h2]
    decide!

/-- Counterexample to C3 as stated: every `HAL_UpdateNotifierAlarm` of this run
gives back status `-1`, and each of them is followed by a `LoopFunc` call; the
loop goes on until the alarm wait itself fails. (The deadlines are the doubles
0.27, 0.29000000000000004 and 0.31000000000000005.) -/
theorem C3_counterexample :
    TimedRobot.StartCompetition (demoCollaborators 2 (0, 0) (-1)) 3 demoRobot =
      Outcome.returned
        { m_period := Double.finite (5764607523034235 / 288230376151711744)
          m_expirationTime := Double.finite (698057942242427 / 2251799813685248)
          m_notifier := 1
          world := 3
          trace :=
            [Event.RobotInit,
             Event.HAL_ObserveUserProgramStarting,
             Event.GetFPGATimestamp (Double.finite (1 / 4)),
             Event.UpdateAlarm (Double.finite (607985949695017 / 2251799813685248)),
             Event.HAL_UpdateNotifierAlarm 1 270000 (-1),
             Event.wpi_setErrorWithContext (-1),
             Event.HAL_WaitForNotifierAlarm 1 270000 0,
             Event.UpdateAlarm (Double.finite (326510972984361 / 1125899906842624)),
             Event.HAL_UpdateNotifierAlarm 1 290000 (-1),
             Event.wpi_setErrorWithContext (-1),
             Event.LoopFunc,
             Event.HAL_WaitForNotifierAlarm 1 290000 0,
             Event.UpdateAlarm (Double.finite (698057942242427 / 2251799813685248)),
             Event.HAL_UpdateNotifierAlarm 1 310000 (-1),
             Event.wpi_setErrorWithContext (-1),
             Event.LoopFunc,
             Event.HAL_WaitForNotifierAlarm 1 0 0] } := by
  decide!

/-- C3 (amended): at the head of the loop after `N` successful waits, a nonzero
status of `HAL_WaitForNotifierAlarm` makes `StartCompetition` return with no
further `LoopFunc` call. The status of `HAL_UpdateNotifierAlarm` is handed to
`wpi_setErrorWithContext` right after the call and decides nothing else: after a
successful wait the pass re-arms, reports that status, calls `LoopFunc` and the
loop is still running, whether the status is zero or not. -/
theorem C3_wait_status_stops_loop_update_status_is_only_reported (c : Collaborators W)
    (r0 r : TimedRobot W) (N : Nat)
    (h : TimedRobot.StartCompetition c N r0 = Outcome.running r) :
    ((TimedRobot.waitForAlarm c r).1.2 ≠ 0 →
      ∀ fuel, N < fuel →
        TimedRobot.StartCompetition c fuel r0 =
          Outcome.returned (TimedRobot.waitForAlarm c r).2 ∧
        (TimedRobot.waitForAlarm c r).2.trace.count Event.LoopFunc =
          r.trace.count Event.LoopFunc) ∧
    (¬ alarmFailed (TimedRobot.waitForAlarm c r).1 →
      ∃ r1 : TimedRobot W,
        TimedRobot.StartCompetition c (N + 1) r0 = Outcome.running r1 ∧
        r1.trace = r.trace ++
          [Event.HAL_WaitForNotifierAlarm r.m_notifier (TimedRobot.waitForAlarm c r).1.1
            (TimedRobot.waitForAlarm c r).1.2,
           Event.UpdateAlarm (Double.add r.m_expirationTime r.m_period),
           Event.HAL_UpdateNotifierAlarm r.m_notifier
            (toUInt64 c.castOutOfRange
              (Double.mul (Double.add r.m_expirationTime r.m_period) (Double.finite 1000000)))
            (c.HAL_UpdateNotifierAlarm r.m_notifier
              (toUInt64 c.castOutOfRange
                (Double.mul (Double.add r.m_expirationTime r.m_period)
                  (Double.finite 1000000)))
              (TimedRobot.waitForAlarm c r).2.world).1,
           Event.wpi_setErrorWithContext
            (c.HAL_UpdateNotifierAlarm r.m_notifier
              (toUInt64 c.castOutOfRange
                (Double.mul (Double.add r.m_expirationTime r.m_period)
                  (Double.finite 1000000)))
              (TimedRobot.waitForAlarm c r).2.world).1,
           Event.LoopFunc]) := by
  refine ⟨?_, ?_⟩
  · intro hs fuel hlt
    refine ⟨failed_wait_returns c r0 r N fuel h (Or.inr hs) hlt, ?_⟩
    simp [TimedRobot.waitForAlarm, List.count_append, List.count_cons]
  · intro hok
    refine ⟨_, good_wait_continues c r0 r N h hok, ?_⟩
    simp [TimedRobot.tick, TimedRobot.UpdateAlarm, TimedRobot.waitForAlarm]

/-- Witness of C3 (amended): with every `HAL_UpdateNotifierAlarm` giving back
`-1` the second pass still runs to its `LoopFunc`; and a wait with status `-7`
(and a nonzero timestamp) after two passes makes the run return. -/
theorem C3_witness :
    (∃ r1 : TimedRobot Nat,
      TimedRobot.StartCompetition (demoCollaborators 2 (0, 0) (-1)) (1 + 1) demoRobot =
        Outcome.running r1 ∧
      r1.trace = (TimedRobot.StartCompetition (demoCollaborators 2 (0, 0) (-1)) 1
          demoRobot).state.trace ++
        [Event.HAL_WaitForNotifierAlarm 1 290000 0,
         Event.UpdateAlarm (Double.add (TimedRobot.StartCompetition
          (demoCollaborators 2 (0, 0) (-1)) 1 demoRobot).state.m_expirationTime
            demoRobot.m_period),
         Event.HAL_UpdateNotifierAlarm 1 (toUInt64 (fun _ => 0)
          (Double.mul (Double.add (TimedRobot.StartCompetition
            (demoCollaborators 2 (0, 0) (-1)) 1 demoRobot).state.m_expirationTime
              demoRobot.m_period) (Double.finite 1000000))) (-1),
         Event.wpi_setErrorWithContext (-1),
         Event.LoopFunc]) ∧
    (TimedRobot.StartCompetition (demoCollaborators 2 (310000, -7) 0) 4 demoRobot =
      Outcome.returned (TimedRobot.waitForAlarm (demoCollaborators 2 (310000, -7) 0)
        (TimedRobot.StartCompetition (demoCollaborators 2 (310000, -7) 0) 2
          demoRobot).state).2) :=
  ⟨(C3_wait_status_stops_loop_update_status_is_only_reported
      (demoCollaborators 2 (0, 0) (-1)) demoRobot _ 1 rfl).2 (by decide),
   ((C3_wait_status_stops_loop_update_status_is_only_reported
      (demoCollaborators 2 (310000, -7) 0) demoRobot _ 2 rfl).1 (by decide) 4 (by decide)).1⟩

theorem armedMicros_append (l1 l2 : List Event) :
    armedMicros (l1 ++ l2) = armedMicros l1 ++ armedMicros l2 := by
  induction l1 with
  | nil => rfl
  | cons e t ih => cases e <;> simp [armedMicros, ih]

/-- Where the C++ conversion is defined for a non-negative double, it is the
floor. -/
theorem toUInt64_eq_floor (f : Double → Nat) (x : ℚ) (h0 : 0 ≤ x) (hlt : x < 2 ^ 64) :
    toUInt64 f (Double.finite x) = ⌊x⌋.toNat := by
  have hnum : 0 ≤ x.num := Rat.num_nonneg.mpr h0
  have htd : Int.tdiv x.num (x.den : Int) = ⌊x⌋ := by
    rw [Int.tdiv_eq_ediv hnum (Int.ofNat_nonneg _), ← Rat.floor_def]
  have hf0 : 0 ≤ ⌊x⌋ := Int.floor_nonneg.mpr h0
  have hf1 : ⌊x⌋ < 2 ^ 64 := by
    rw [Int.floor_lt]
    exact_mod_cast hlt
  simp only [toUInt64, htd]
  rw [if_pos ⟨hf0, hf1⟩]

/-- The trigger times `n` passes that stay in the loop hand to the HAL: the
conversion applied to the product of each deadline and `1e6`. -/
theorem running_micros (c : Collaborators W) (n : Nat) (r r2 : TimedRobot W)
    (h : TimedRobot.whileTrue c n r = Outcome.running r2) :
    armedMicros r2.trace = armedMicros r.trace ++
      ((List.range n).map
        (fun (j : Nat) => addPeriods r.m_expirationTime r.m_period (j + 1))).map
        (fun e => toUInt64 c.castOutOfRange (Double.mul e (Double.finite 1000000))) := by
  induction n generalizing r2 with
  | zero =>
    simp only [TimedRobot.whileTrue] at h
    injection h with h
    subst h
    simp
  | succ n ih =>
    obtain ⟨r1, h1, _, rfl⟩ := running_succ c n r r2 h
    obtain ⟨hp, _, he, _⟩ := running_state c n r r1 h1
    obtain ⟨status, ht⟩ := tick_trace c r1
    rw [ht, armedMicros_append, ih r1 h1, List.range_succ, List.map_append, List.map_append,
      List.append_assoc, he, hp]
    simp only [armedMicros, List.map_cons, List.map_nil, addPeriods]

theorem startup_micros (c : Collaborators W) (r : TimedRobot W) :
    armedMicros (TimedRobot.startup c r).trace =
      armedMicros r.trace ++ [toUInt64 c.castOutOfRange
        (Double.mul (Double.add (clockAfterInit c r) r.m_period) (Double.finite 1000000))] := by
  simp [TimedRobot.startup, TimedRobot.UpdateAlarm, armedMicros_append, armedMicros,
    clockAfterInit]

/-- The trigger times of a run that made `K` passes and is still in the loop. -/
theorem run_micros (c : Collaborators W) (r0 r : TimedRobot W) (K : Nat)
    (h : TimedRobot.StartCompetition c K r0 = Outcome.running r) :
    armedMicros r.trace = armedMicros r0.trace ++
      (List.range (K + 1)).map
        (fun (j : Nat) => toUInt64 c.castOutOfRange
          (Double.mul (addPeriods (clockAfterInit c r0) r0.m_period (j + 1))
            (Double.finite 1000000))) := by
  obtain ⟨sp, _, se, _, _⟩ := startup_fields c r0
  have hr : (List.range (K + 1)).map
      (fun (j : Nat) => toUInt64 c.castOutOfRange
        (Double.mul (addPeriods (clockAfterInit c r0) r0.m_period (j + 1))
          (Double.finite 1000000))) =
      ((List.range (K + 1)).map
        (fun (j : Nat) => addPeriods (clockAfterInit c r0) r0.m_period (j + 1))).map
        (fun e => toUInt64 c.castOutOfRange (Double.mul e (Double.finite 1000000))) := by
    rw [List.map_map]
    rfl
  rw [running_micros c K _ r h, startup_micros, se, sp, List.append_assoc, hr,
    ← deadlines_shift, List.map_append]
  rfl

/-- Counterexample to C17 as stated: clock 0.16 s, `TimedRobot(0.02)`, two
successful waits. The trigger times armed are 180000, 199999 and 219999. After
the first successful wait the exact `(t0 + 2p) * 10^6` has floor 200000 and lies
more than one microsecond above the armed 199999; and the first two armed
values differ by 19999 although `p * 1e6` is 20000. -/
theorem C17_counterexample :
    TimedRobot.StartCompetition (recordingCollaborators (roundDouble (4 / 25)) 2) 2
        (recordingRobot (roundDouble (1 / 50))) =
      Outcome.running
        (TimedRobot.StartCompetition (recordingCollaborators (roundDouble (4 / 25)) 2) 2
          (recordingRobot (roundDouble (1 / 50)))).state ∧
    clockAfterInit (recordingCollaborators (roundDouble (4 / 25)) 2)
        (recordingRobot (roundDouble (1 / 50))) =
      Double.finite (5764607523034235 / 36028797018963968) ∧
    (recordingRobot (roundDouble (1 / 50))).m_period =
      Double.finite (5764607523034235 / 288230376151711744) ∧
    armedMicros (TimedRobot.StartCompetition (recordingCollaborators (roundDouble (4 / 25)) 2)
        2 (recordingRobot (roundDouble (1 / 50)))).state.trace = [180000, 199999, 219999] ∧
    ⌊((5764607523034235 / 36028797018963968 : ℚ) +
        (1 + 1) * (5764607523034235 / 288230376151711744)) * 1000000⌋ = 200000 ∧
    (1 : ℚ) < ((5764607523034235 / 36028797018963968 : ℚ) +
        (1 + 1) * (5764607523034235 / 288230376151711744)) * 1000000 - 199999 ∧
    Double.mul (Double.finite (5764607523034235 / 288230376151711744))
        (Double.finite 1000000) = Double.finite 20000 ∧
    (199999 : ℤ) - 180000 = 19999 := by
  refine ⟨rfl, ?_, ?_, ?_, ?_, ?_, ?_, ?_⟩
  · decide!
  · decide!
  · decide!
  · decide!
  · decide!
  · decide!
  · decide!

/-- C17 (amended): `UpdateAlarm` hands to the HAL the double product of the
deadline and `1e6`, converted by `static_cast<uint64_t>`, reports the status and
changes nothing else; for a product `x` in `[0, 2^64)` the conversion is the
floor of `x`, at most `x` and less than one below it. For a run whose first `K`
waits succeeded the trigger times armed are that conversion applied to the
successive rounded deadlines. When the sums and products involved are exact and
in that range, they are `⌊(t0 + (j+1)p) * 10^6⌋`, `j = 0, ..., K`, and for `t0`
and `p` the whole numbers of microseconds `A` and `B` they are `A + (j+1)B`. -/
theorem C17_armed_trigger_time_is_truncated_double_product (c : Collaborators W)
    (r0 r : TimedRobot W) (K : Nat)
    (h : TimedRobot.StartCompetition c K r0 = Outcome.running r) :
    (∀ (t : TimedRobot W) (status : Int) (w : W),
      c.HAL_UpdateNotifierAlarm t.m_notifier
        (toUInt64 c.castOutOfRange (Double.mul t.m_expirationTime (Double.finite 1000000)))
        t.world = (status, w) →
      TimedRobot.UpdateAlarm c t =
        { m_period := t.m_period
          m_expirationTime := t.m_expirationTime
          m_notifier := t.m_notifier
          world := c.wpi_setErrorWithContext status w
          trace := t.trace ++
            [Event.UpdateAlarm t.m_expirationTime,
             Event.HAL_UpdateNotifierAlarm t.m_notifier
              (toUInt64 c.castOutOfRange
                (Double.mul t.m_expirationTime (Double.finite 1000000))) status,
             Event.wpi_setErrorWithContext status] }) ∧
    (∀ x : ℚ, 0 ≤ x → x < 2 ^ 64 →
      toUInt64 c.castOutOfRange (Double.finite x) = ⌊x⌋.toNat ∧
      ((⌊x⌋.toNat : ℕ) : ℚ) ≤ x ∧ x - ((⌊x⌋.toNat : ℕ) : ℚ) < 1) ∧
    armedMicros r.trace = armedMicros r0.trace ++
      (List.range (K + 1)).map
        (fun (j : Nat) => toUInt64 c.castOutOfRange
          (Double.mul (addPeriods (clockAfterInit c r0) r0.m_period (j + 1))
            (Double.finite 1000000))) ∧
    (∀ a b : ℚ, clockAfterInit c r0 = Double.finite a → r0.m_period = Double.finite b →
      (∀ j : Nat, j ≤ K →
        Double.add (Double.finite (a + (j : ℚ) * b)) (Double.finite b) =
          Double.finite (a + ((j : ℚ) + 1) * b) ∧
        Double.mul (Double.finite (a + ((j : ℚ) + 1) * b)) (Double.finite 1000000) =
          Double.finite ((a + ((j : ℚ) + 1) * b) * 1000000) ∧
        0 ≤ a + ((j : ℚ) + 1) * b ∧ (a + ((j : ℚ) + 1) * b) * 1000000 < 2 ^ 64) →
      armedMicros r.trace = armedMicros r0.trace ++
        (List.range (K + 1)).map
          (fun (j : Nat) => ⌊(a + ((j : ℚ) + 1) * b) * 1000000⌋.toNat) ∧
      (∀ A B : ℤ, a = (A : ℚ) / 1000000 → b = (B : ℚ) / 1000000 →
        ∀ j : Nat, j ≤ K →
          ((⌊(a + ((j : ℚ) + 1) * b) * 1000000⌋.toNat : ℕ) : ℤ) = A + ((j : ℤ) + 1) * B)) := by
  have hmic := run_micros c r0 r K h
  refine ⟨?_, ?_, hmic, ?_⟩
  · intro t status w hu
    simp only [TimedRobot.UpdateAlarm, hu]
  · intro x h0 hlt
    have hf0 : 0 ≤ ⌊x⌋ := Int.floor_nonneg.mpr h0
    have hcast : ((⌊x⌋.toNat : ℕ) : ℚ) = ((⌊x⌋ : ℤ) : ℚ) := by
      have := Int.toNat_of_nonneg hf0
      exact_mod_cast congrArg (fun z : ℤ => (z : ℚ)) this
    refine ⟨toUInt64_eq_floor _ x h0 hlt, ?_, ?_⟩
    · rw [hcast]; exact Int.floor_le x
    · rw [hcast]
      have := Int.lt_floor_add_one x
      linarith
  · intro a b ha hb hex
    constructor
    · rw [hmic]
      congr 1
      apply List.map_congr_left
      intro j hj
      have hj2 : j ≤ K := Nat.lt_succ_iff.mp (List.mem_range.mp hj)
      have hadd : addPeriods (clockAfterInit c r0) r0.m_period (j + 1) =
          Double.finite (a + ((j : ℚ) + 1) * b) := by
        rw [ha, hb, addPeriods_exact a b (j + 1)
          (fun i hi => (hex i (le_trans (Nat.lt_succ_iff.mp hi) hj2)).1)]
        push_cast
        rfl
      rw [hadd, (hex j hj2).2.1]
      exact toUInt64_eq_floor _ _ (mul_nonneg (hex j hj2).2.2.1 (by norm_num))
        (hex j hj2).2.2.2
    · intro A B hA hB j hj
      have hnn : 0 ≤ ⌊(a + ((j : ℚ) + 1) * b) * 1000000⌋ :=
        Int.floor_nonneg.mpr (mul_nonneg (hex j hj).2.2.1 (by norm_num))
      rw [Int.toNat_of_nonneg hnn, hA, hB]
      have : ((A : ℚ) / 1000000 + ((j : ℚ) + 1) * ((B : ℚ) / 1000000)) * 1000000 =
          ((A + ((j : ℤ) + 1) * B : ℤ) : ℚ) := by
        push_cast
        ring
      rw [this, Int.floor_intCast]

/-- Witness of C17 (amended): clock 1/4 s and period 1/64 s (250000 and 15625
microseconds), two successful waits; every sum and product is exact and the
trigger times are 265625, 281250 and 296875. -/
theorem C17_witness :
    TimedRobot.StartCompetition (recordingCollaborators (Double.finite (1 / 4)) 2) 2
        (recordingRobot (Double.finite (1 / 64))) =
      Outcome.running
        (TimedRobot.StartCompetition (recordingCollaborators (Double.finite (1 / 4)) 2) 2
          (recordingRobot (Double.finite (1 / 64)))).state ∧
    armedMicros (TimedRobot.StartCompetition (recordingCollaborators (Double.finite (1 / 4)) 2)
        2 (recordingRobot (Double.finite (1 / 64)))).state.trace =
      armedMicros (recordingRobot (Double.finite (1 / 64))).trace ++
        (List.range (2 + 1)).map
          (fun (j : Nat) => ⌊((1 / 4 : ℚ) + ((j : ℚ) + 1) * (1 / 64)) * 1000000⌋.toNat) ∧
    armedMicros (TimedRobot.StartCompetition (recordingCollaborators (Double.finite (1 / 4)) 2)
        2 (recordingRobot (Double.finite (1 / 64)))).state.trace = [265625, 281250, 296875] := by
  have hex : ∀ j : Nat, j ≤ 2 →
      Double.add (Double.finite (1 / 4 + (j : ℚ) * (1 / 64))) (Double.finite (1 / 64)) =
        Double.finite (1 / 4 + ((j : ℚ) + 1) * (1 / 64)) ∧
      Double.mul (Double.finite (1 / 4 + ((j : ℚ) + 1) * (1 / 64))) (Double.finite 1000000) =
        Double.finite ((1 / 4 + ((j : ℚ) + 1) * (1 / 64)) * 1000000) ∧
      0 ≤ (1 / 4 : ℚ) + ((j : ℚ) + 1) * (1 / 64) ∧
      ((1 / 4 : ℚ) + ((j : ℚ) + 1) * (1 / 64)) * 1000000 < 2 ^ 64 := by
    intro j hj
    interval_cases j <;> decide!
  refine ⟨rfl, ((C17_armed_trigger_time_is_truncated_double_product
    (recordingCollaborators (Double.finite (1 / 4)) 2)
    (recordingRobot (Double.finite (1 / 64))) _ 2 rfl).2.2.2 (1 / 4) (1 / 64) rfl rfl hex).1,
    ?_⟩
  decide!

end frc

namespace frc2

variable {Key W : Type} [DecidableEq Key]

theorem deref_congr (h : Heap W) (s : SelectCommand Key W) (σ σ1 : Runtime Key W)
    (hp : σ1.printCommands = σ.printCommands) (p : CommandPtr Key) :
    deref h s σ1 p = deref h s σ p := by
  cases p <;> simp [deref, hp]

theorem call_resolved (h : Heap W) (s : SelectCommand Key W) (σ : Runtime Key W)
    (p : CommandPtr Key) (c : Command W) (hs : s.m_selectedCommand = some p)
    (hd : deref h s σ p = some c) (op : Op) :
    SelectCommand.call h op s σ = Except.ok (s, Command.call c p op σ) := by
  cases op <;>
    simp [SelectCommand.call, SelectCommand.Execute, SelectCommand.End,
      SelectCommand.IsFinished, Command.call, hs, hd]

theorem calls_resolved (h : Heap W) (s : SelectCommand Key W) (σ : Runtime Key W)
    (p : CommandPtr Key) (c : Command W) (hs : s.m_selectedCommand = some p)
    (hd : deref h s σ p = some c) (ops : List Op) :
    SelectCommand.calls h ops s σ = Except.ok (s, Command.calls c p ops σ) := by
  induction ops generalizing σ with
  | nil => rfl
  | cons op ops ih =>
    simp only [SelectCommand.calls, call_resolved h s σ p c hs hd op, Command.calls]
    apply ih
    rw [deref_congr h s σ _ ?_ p]
    · exact hd
    · cases op <;> rfl

theorem resolutions_append (l1 l2 : List (Event Key)) :
    resolutions (l1 ++ l2) = resolutions l1 + resolutions l2 := by
  induction l1 with
  | nil => simp [resolutions]
  | cons e t ih => cases e <;> simp [resolutions, ih] <;> omega

theorem Command_calls_trace (c : Command W) (p : CommandPtr Key) (ops : List Op)
    (σ : Runtime Key W) :
    (Command.calls c p ops σ).printCommands = σ.printCommands ∧
    ∃ evs : List (Event Key), (Command.calls c p ops σ).trace = σ.trace ++ evs ∧
      evs.length = ops.length ∧ (∀ e ∈ evs, e.target = some p) ∧ resolutions evs = 0 := by
  induction ops generalizing σ with
  | nil => exact ⟨rfl, [], by simp [Command.calls, resolutions]⟩
  | cons op ops ih =>
    obtain ⟨hp, evs, ht, hl, htar, hres⟩ := ih (Command.call c p op σ)
    cases op with
    | Execute =>
      refine ⟨by rw [Command.calls, hp]; rfl, Event.Execute p :: evs, ?_, by simp [hl], ?_, ?_⟩
      · rw [Command.calls, ht]; simp [Command.call]
      · intro e he
        rcases List.mem_cons.mp he with rfl | he
        · rfl
        · exact htar e he
      · simp [resolutions, hres]
    | End b =>
      refine ⟨by rw [Command.calls, hp]; rfl, Event.End p b :: evs, ?_, by simp [hl], ?_, ?_⟩
      · rw [Command.calls, ht]; simp [Command.call]
      · intro e he
        rcases List.mem_cons.mp he with rfl | he
        · rfl
        · exact htar e he
      · simp [resolutions, hres]
    | IsFinished =>
      refine ⟨by rw [Command.calls, hp]; rfl,
        Event.IsFinished p (c.IsFinished σ.world).1 :: evs, ?_, by simp [hl], ?_, ?_⟩
      · rw [Command.calls, ht]; simp [Command.call]
      · intro e he
        rcases List.mem_cons.mp he with rfl | he
        · rfl
        · exact htar e he
      · simp [resolutions, hres]

theorem Initialize_key_miss (h : Heap W) (s : SelectCommand Key W) (σ : Runtime Key W)
    (selector : W → Key × W) (hsel : s.m_selector = some selector)
    (hmiss : s.m_commands.lookup (selector σ.world).1 = none) :
    SelectCommand.Initialize h s σ = Except.ok
      ({ s with m_selectedCommand := some (CommandPtr.allocated σ.printCommands.length) },
       { world := (selector σ.world).2
         printCommands := σ.printCommands ++ [keyMissMessage]
         trace := σ.trace ++ [Event.m_selector (selector σ.world).1,
           Event.find (selector σ.world).1 false, Event.newPrintCommand keyMissMessage] }) := by
  simp [SelectCommand.Initialize, hsel, hmiss]

theorem Initialize_key_found (h : Heap W) (s : SelectCommand Key W) (σ : Runtime Key W)
    (selector : W → Key × W) (c : Command W) (hsel : s.m_selector = some selector)
    (hfound : s.m_commands.lookup (selector σ.world).1 = some c) :
    SelectCommand.Initialize h s σ = Except.ok
      ({ s with m_selectedCommand := some (CommandPtr.mapped (selector σ.world).1) },
       { world := c.Initialize (selector σ.world).2
         printCommands := σ.printCommands
         trace := σ.trace ++ [Event.m_selector (selector σ.world).1,
           Event.find (selector σ.world).1 true,
           Event.Initialize (CommandPtr.mapped (selector σ.world).1)] }) := by
  simp [SelectCommand.Initialize, SelectCommand.initializeSelected, deref, hsel, hfound]

theorem Initialize_supplied (h : Heap W) (s : SelectCommand Key W) (σ : Runtime Key W)
    (toRun : W → Option Nat × W) (p : Nat) (hsel : s.m_selector = none)
    (hrun : s.m_toRun = some toRun) (hp : (toRun σ.world).1 = some p) :
    SelectCommand.Initialize h s σ = Except.ok
      ({ s with m_selectedCommand := some (CommandPtr.supplied p) },
       { world := (h.supplied p).Initialize (toRun σ.world).2
         printCommands := σ.printCommands
         trace := σ.trace ++ [Event.m_toRun (some p),
           Event.Initialize (CommandPtr.supplied p)] }) := by
  simp [SelectCommand.Initialize, SelectCommand.initializeSelected, deref, hsel, hrun, hp]

/-- Whenever `Initialize` returns, the selected pointer is assigned and valid, and
the selector or the supplier was evaluated once. -/
theorem Initialize_ok_resolved (h : Heap W) (s0 s : SelectCommand Key W)
    (σ0 σ : Runtime Key W) (hinit : SelectCommand.Initialize h s0 σ0 = Except.ok (s, σ)) :
    ∃ (p : CommandPtr Key) (c : Command W), s.m_selectedCommand = some p ∧
      deref h s σ p = some c ∧ resolutions σ.trace = resolutions σ0.trace + 1 := by
  cases hsel : s0.m_selector with
  | some selector =>
    cases hl : s0.m_commands.lookup (selector σ0.world).1 with
    | none =>
      rw [Initialize_key_miss h s0 σ0 selector hsel hl] at hinit
      injection hinit with hinit
      injection hinit with h1 h2
      subst h1 h2
      exact ⟨_, h.PrintCommand keyMissMessage, rfl, by simp [deref],
        by simp [resolutions_append, resolutions]⟩
    | some c =>
      rw [Initialize_key_found h s0 σ0 selector c hsel hl] at hinit
      injection hinit with hinit
      injection hinit with h1 h2
      subst h1 h2
      exact ⟨_, c, rfl, by simp [deref, hl], by simp [resolutions_append, resolutions]⟩
  | none =>
    cases hrun : s0.m_toRun with
    | none => simp [SelectCommand.Initialize, hsel, hrun] at hinit
    | some toRun =>
      cases hp : (toRun σ0.world).1 with
      | none =>
        simp [SelectCommand.Initialize, SelectCommand.initializeSelected, deref, hsel, hrun,
          hp] at hinit
      | some p =>
        rw [Initialize_supplied h s0 σ0 toRun p hsel hrun hp] at hinit
        injection hinit with hinit
        injection hinit with h1 h2
        subst h1 h2
        exact ⟨_, h.supplied p, rfl, by simp [deref], by simp [resolutions_append, resolutions]⟩

theorem Execute_resolved (h : Heap W) (s : SelectCommand Key W) (σ : Runtime Key W)
    (p : CommandPtr Key) (c : Command W) (hs : s.m_selectedCommand = some p)
    (hd : deref h s σ p = some c) :
    SelectCommand.Execute h s σ = Except.ok
      (s, { σ with world := c.Execute σ.world, trace := σ.trace ++ [Event.Execute p] }) := by
  simp [SelectCommand.Execute, hs, hd]

theorem End_resolved (h : Heap W) (s : SelectCommand Key W) (σ : Runtime Key W)
    (p : CommandPtr Key) (c : Command W) (hs : s.m_selectedCommand = some p)
    (hd : deref h s σ p = some c) (interrupted : Bool) :
    SelectCommand.End h interrupted s σ = Except.ok
      (s, { σ with
        world := c.End interrupted σ.world
        trace := σ.trace ++ [Event.End p interrupted] }) := by
  simp [SelectCommand.End, hs, hd]

theorem IsFinished_resolved (h : Heap W) (s : SelectCommand Key W) (σ : Runtime Key W)
    (p : CommandPtr Key) (c : Command W) (hs : s.m_selectedCommand = some p)
    (hd : deref h s σ p = some c) :
    SelectCommand.IsFinished h s σ = Except.ok
      ((c.IsFinished σ.world).1, s, { σ with
        world := (c.IsFinished σ.world).2
        trace := σ.trace ++ [Event.IsFinished p (c.IsFinished σ.world).1] }) := by
  simp [SelectCommand.IsFinished, hs, hd]

/-- Once a valid child is selected, every sequence of calls returns, leaves the
object as it is, calls that child only and keeps the pointer valid. -/
theorem resolved_after (h : Heap W) (s : SelectCommand Key W) (σ : Runtime Key W)
    (p : CommandPtr Key) (c : Command W) (hs : s.m_selectedCommand = some p)
    (hd : deref h s σ p = some c) (ops : List Op) :
    ∃ (σ2 : Runtime Key W) (evs : List (Event Key)),
      SelectCommand.calls h ops s σ = Except.ok (s, σ2) ∧ σ2.trace = σ.trace ++ evs ∧
      evs.length = ops.length ∧ (∀ e ∈ evs, e.target = some p) ∧ resolutions evs = 0 ∧
      deref h s σ2 p = some c := by
  obtain ⟨hp, evs, ht, hl, htar, hres⟩ := Command_calls_trace c p ops σ
  exact ⟨_, evs, calls_resolved h s σ p c hs hd ops, ht, hl, htar, hres,
    by rw [deref_congr h s σ _ hp p]; exact hd⟩

theorem demoSelect_commands (key : String) :
    (demoSelect key).m_commands = [("fwd", demoCommand "Fwd"), ("rev", demoCommand "Rev")] := by
  simp [demoSelect, SelectCommand.keyed, SelectCommand.blank, emplace, RequireUngrouped,
    demoCommand, List.lookup]

theorem demoSelect_left_miss :
    List.lookup ((fun console : List String => ("left", console)) demoRuntime.world).1
      (demoSelect "left").m_commands = none := by
  simp [demoSelect_commands, List.lookup]

theorem demoSelect_fwd_found :
    List.lookup ((fun console : List String => ("fwd", console)) demoRuntime.world).1
      (demoSelect "fwd").m_commands = some (demoCommand "Fwd") := by
  simp [demoSelect_commands, List.lookup]

/-- A call that returns leaves the object as it was and evaluates neither the
selector nor the supplier. -/
theorem call_keeps_selection (h : Heap W) (op : Op) (s s1 : SelectCommand Key W)
    (σ σ1 : Runtime Key W) (hc : SelectCommand.call h op s σ = Except.ok (s1, σ1)) :
    s1 = s ∧ resolutions σ1.trace = resolutions σ.trace := by
  cases hs : s.m_selectedCommand with
  | none =>
    cases op <;>
      simp [SelectCommand.call, SelectCommand.Execute, SelectCommand.End,
        SelectCommand.IsFinished, hs] at hc
  | some p =>
    cases hd : deref h s σ p with
    | none =>
      cases op <;>
        simp [SelectCommand.call, SelectCommand.Execute, SelectCommand.End,
          SelectCommand.IsFinished, hs, hd] at hc
    | some c =>
      rw [call_resolved h s σ p c hs hd op] at hc
      injection hc with hc
      injection hc with h1 h2
      subst h1 h2
      refine ⟨rfl, ?_⟩
      cases op <;> simp [Command.call, resolutions_append, resolutions]

/-- C6: when the selector's value is not a key of the mapping, `Initialize`
returns (no fault); the active child is the `PrintCommand` object it has just
created (at an address at which no object was before, and not a pointer into the
mapping); `Initialize` itself makes no lifecycle call at all; every later
sequence of `Execute`/`End`/`IsFinished` calls returns and makes its calls on
that object only; and `IsFinished` gives back what the diagnostic object's
`IsFinished` gives, hence `true` when that object reports finished. -/
theorem C6_key_miss_selects_fresh_diagnostic_task (h : Heap W) (s : SelectCommand Key W)
    (σ : Runtime Key W) (selector : W → Key × W) (hsel : s.m_selector = some selector)
    (hmiss : s.m_commands.lookup (selector σ.world).1 = none) :
    ∃ (s1 : SelectCommand Key W) (σ1 : Runtime Key W),
      SelectCommand.Initialize h s σ = Except.ok (s1, σ1) ∧
      s1.m_selectedCommand = some (CommandPtr.allocated σ.printCommands.length) ∧
      σ.printCommands.get? σ.printCommands.length = none ∧
      deref h s1 σ1 (CommandPtr.allocated σ.printCommands.length) =
        some (h.PrintCommand keyMissMessage) ∧
      σ1.trace = σ.trace ++ [Event.m_selector (selector σ.world).1,
        Event.find (selector σ.world).1 false, Event.newPrintCommand keyMissMessage] ∧
      (∀ ops : List Op, ∃ (σ2 : Runtime Key W) (evs : List (Event Key)),
        SelectCommand.calls h ops s1 σ1 = Except.ok (s1, σ2) ∧
        σ2.trace = σ1.trace ++ evs ∧
        (∀ e ∈ evs, e.target = some (CommandPtr.allocated σ.printCommands.length)) ∧
        SelectCommand.IsFinished h s1 σ2 = Except.ok
          (((h.PrintCommand keyMissMessage).IsFinished σ2.world).1, s1,
           { σ2 with
             world := ((h.PrintCommand keyMissMessage).IsFinished σ2.world).2
             trace := σ2.trace ++ [Event.IsFinished
               (CommandPtr.allocated σ.printCommands.length)
               ((h.PrintCommand keyMissMessage).IsFinished σ2.world).1] }) ∧
        ((∀ w, ((h.PrintCommand keyMissMessage).IsFinished w).1 = true) →
          ∃ σ3, SelectCommand.IsFinished h s1 σ2 = Except.ok (true, s1, σ3))) := by
  have hd : deref h
      { s with m_selectedCommand := some (CommandPtr.allocated σ.printCommands.length) }
      { world := (selector σ.world).2
        printCommands := σ.printCommands ++ [keyMissMessage]
        trace := σ.trace ++ [Event.m_selector (selector σ.world).1,
          Event.find (selector σ.world).1 false, Event.newPrintCommand keyMissMessage] }
      (CommandPtr.allocated σ.printCommands.length) =
        some (h.PrintCommand keyMissMessage) := by
    simp [deref]
  refine ⟨_, _, Initialize_key_miss h s σ selector hsel hmiss, rfl, by simp, hd, rfl, ?_⟩
  intro ops
  obtain ⟨σ2, evs, hc, ht, _, htar, _, hd2⟩ := resolved_after h _ _ _ _ rfl hd ops
  have hfin := IsFinished_resolved h _ σ2 _ _ rfl hd2
  refine ⟨σ2, evs, hc, ht, htar, hfin, ?_⟩
  intro hall
  rw [hfin, hall]
  exact ⟨_, rfl⟩

/-- Witness of C6: the example of the specification, a selector giving "left"
over the keys "fwd" and "rev". -/
theorem C6_witness :
    ∃ (s1 : SelectCommand String (List String)) (σ1 : Runtime String (List String)),
      SelectCommand.Initialize demoHeap (demoSelect "left") demoRuntime = Except.ok (s1, σ1) ∧
      s1.m_selectedCommand = some (CommandPtr.allocated 0) ∧
      σ1.trace = [Event.m_selector "left", Event.find "left" false,
        Event.newPrintCommand keyMissMessage] ∧
      ∃ σ3, SelectCommand.IsFinished demoHeap s1 σ1 = Except.ok (true, s1, σ3) := by
  obtain ⟨s1, σ1, h1, h2, _, _, h5, h6⟩ :=
    C6_key_miss_selects_fresh_diagnostic_task demoHeap (demoSelect "left") demoRuntime
      (fun console => ("left", console)) rfl demoSelect_left_miss
  obtain ⟨σ2, evs, h7, _, _, _, h8⟩ := h6 []
  simp only [SelectCommand.calls, Except.ok.injEq, Prod.mk.injEq, true_and] at h7
  subst h7
  exact ⟨s1, σ1, h1, h2, h5, h8 (fun _ => rfl)⟩

/-- C7 at the failing input `Select({"fwd": Fwd, "rev": Rev}, selector → "left")`:
`Initialize` creates the diagnostic `PrintCommand` and returns at once. The trace
holds no `Initialize` call on it (the count is 0, not 1) and the console is
still empty: the message is never written. With the selector giving "fwd" the
same function does call `Initialize` on the child, once. -/
theorem C7_key_miss_skips_Initialize_of_diagnostic :
    (∃ (s1 : SelectCommand String (List String)) (σ1 : Runtime String (List String)),
      SelectCommand.Initialize demoHeap (demoSelect "left") demoRuntime = Except.ok (s1, σ1) ∧
      s1.m_selectedCommand = some (CommandPtr.allocated 0) ∧
      σ1.trace = [Event.m_selector "left", Event.find "left" false,
        Event.newPrintCommand keyMissMessage] ∧
      σ1.trace.count (Event.Initialize (CommandPtr.allocated 0)) = 0 ∧
      σ1.world = []) ∧
    (∃ (s1 : SelectCommand String (List String)) (σ1 : Runtime String (List String)),
      SelectCommand.Initialize demoHeap (demoSelect "fwd") demoRuntime = Except.ok (s1, σ1) ∧
      s1.m_selectedCommand = some (CommandPtr.mapped "fwd") ∧
      σ1.trace = [Event.m_selector "fwd", Event.find "fwd" true,
        Event.Initialize (CommandPtr.mapped "fwd")] ∧
      σ1.trace.count (Event.Initialize (CommandPtr.mapped "fwd")) = 1 ∧
      σ1.world = ["Fwd.Initialize"]) := by
  refine ⟨⟨_, _, Initialize_key_miss demoHeap (demoSelect "left") demoRuntime
      (fun console => ("left", console)) rfl demoSelect_left_miss, rfl, rfl, ?_, rfl⟩,
    ⟨_, _, Initialize_key_found demoHeap (demoSelect "fwd") demoRuntime
      (fun console => ("fwd", console)) (demoCommand "Fwd") rfl demoSelect_fwd_found,
      rfl, rfl, ?_, ?_⟩⟩
  · decide
  · decide
  · simp [demoCommand, demoRuntime]

/-- C8: in keyed mode with the selector's value `k` a key of the mapping,
`Initialize` returns with the active child the pointer to the command stored
under `k`, having called the selector, looked `k` up and called `Initialize` on
that child: one lifecycle call, the supplier not called. In supplier mode with
the supplier giving a non-null pointer `p`, it returns with the active child `p`,
having called the supplier and `Initialize` on `p`: one lifecycle call, the
mapping not looked up. -/
theorem C8_Initialize_resolves_child_by_mode (h : Heap W) (s : SelectCommand Key W)
    (σ : Runtime Key W) :
    (∀ (selector : W → Key × W) (c : Command W), s.m_selector = some selector →
      s.m_commands.lookup (selector σ.world).1 = some c →
      ∃ (s1 : SelectCommand Key W) (σ1 : Runtime Key W),
        SelectCommand.Initialize h s σ = Except.ok (s1, σ1) ∧
        s1.m_selectedCommand = some (CommandPtr.mapped (selector σ.world).1) ∧
        deref h s1 σ1 (CommandPtr.mapped (selector σ.world).1) = some c ∧
        σ1.world = c.Initialize (selector σ.world).2 ∧
        σ1.trace = σ.trace ++ [Event.m_selector (selector σ.world).1,
          Event.find (selector σ.world).1 true,
          Event.Initialize (CommandPtr.mapped (selector σ.world).1)]) ∧
    (∀ (toRun : W → Option Nat × W) (p : Nat), s.m_selector = none →
      s.m_toRun = some toRun → (toRun σ.world).1 = some p →
      ∃ (s1 : SelectCommand Key W) (σ1 : Runtime Key W),
        SelectCommand.Initialize h s σ = Except.ok (s1, σ1) ∧
        s1.m_selectedCommand = some (CommandPtr.supplied p) ∧
        deref h s1 σ1 (CommandPtr.supplied p) = some (h.supplied p) ∧
        σ1.world = (h.supplied p).Initialize (toRun σ.world).2 ∧
        σ1.trace = σ.trace ++ [Event.m_toRun (some p),
          Event.Initialize (CommandPtr.supplied p)]) := by
  refine ⟨?_, ?_⟩
  · intro selector c hsel hfound
    exact ⟨_, _, Initialize_key_found h s σ selector c hsel hfound, rfl,
      by simp [deref, hfound], rfl, rfl⟩
  · intro toRun p hsel hrun hp
    exact ⟨_, _, Initialize_supplied h s σ toRun p hsel hrun hp, rfl, rfl, rfl, rfl⟩

/-- Witness of C8: the example with the selector giving "fwd", and a supplier
giving the pointer `3`. -/
theorem C8_witness :
    (∃ (s1 : SelectCommand String (List String)) (σ1 : Runtime String (List String)),
      SelectCommand.Initialize demoHeap (demoSelect "fwd") demoRuntime = Except.ok (s1, σ1) ∧
      s1.m_selectedCommand = some (CommandPtr.mapped "fwd") ∧
      σ1.trace = [Event.m_selector "fwd", Event.find "fwd" true,
        Event.Initialize (CommandPtr.mapped "fwd")]) ∧
    (∃ (s1 : SelectCommand String (List String)) (σ1 : Runtime String (List String)),
      SelectCommand.Initialize demoHeap (demoSupplied (some 3)) demoRuntime =
        Except.ok (s1, σ1) ∧
      s1.m_selectedCommand = some (CommandPtr.supplied 3) ∧
      σ1.trace = [Event.m_toRun (some 3), Event.Initialize (CommandPtr.supplied 3)]) := by
  obtain ⟨s1, σ1, h1, h2, _, _, h5⟩ :=
    (C8_Initialize_resolves_child_by_mode demoHeap (demoSelect "fwd") demoRuntime).1
      (fun console => ("fwd", console)) (demoCommand "Fwd") rfl demoSelect_fwd_found
  obtain ⟨s2, σ2, k1, k2, _, _, k5⟩ :=
    (C8_Initialize_resolves_child_by_mode demoHeap (demoSupplied (some 3)) demoRuntime).2
      (fun console => (some 3, console)) 3 rfl rfl rfl
  exact ⟨⟨s1, σ1, h1, h2, h5⟩, ⟨s2, σ2, k1, k2, k5⟩⟩

/-- A call that returns was made on a defined, valid child and is that call made
on the child directly. -/
theorem call_ok_resolved (h : Heap W) (op : Op) (s s1 : SelectCommand Key W)
    (σ σ1 : Runtime Key W) (hc : SelectCommand.call h op s σ = Except.ok (s1, σ1)) :
    ∃ (p : CommandPtr Key) (c : Command W), s.m_selectedCommand = some p ∧
      deref h s σ p = some c ∧ σ1 = Command.call c p op σ := by
  cases hs : s.m_selectedCommand with
  | none =>
    cases op <;>
      simp [SelectCommand.call, SelectCommand.Execute, SelectCommand.End,
        SelectCommand.IsFinished, hs] at hc
  | some p =>
    cases hd : deref h s σ p with
    | none =>
      cases op <;>
        simp [SelectCommand.call, SelectCommand.Execute, SelectCommand.End,
          SelectCommand.IsFinished, hs, hd] at hc
    | some c =>
      rw [call_resolved h s σ p c hs hd op] at hc
      injection hc with hc
      injection hc with h1 h2
      exact ⟨p, c, rfl, hd, h2.symm⟩

theorem demoSelectLogging_commands (key : String) :
    (demoSelectLogging key).m_commands =
      [("fwd", demoCommand "Fwd"), ("rev", demoCommand "Rev")] := by
  simp [demoSelectLogging, SelectCommand.keyed, SelectCommand.blank, emplace, RequireUngrouped,
    demoCommand, List.lookup]

/-- C9: what `Initialize` does is fixed by one evaluation of the selector (or,
without selector, of the supplier) on the world it is called in. With the
selector giving `(k, w)`: on a key miss the new world is `w`; on a key found
the new world is `c.Initialize w` for the command `c` stored under `k`. With
the supplier giving `(p, w)`, `p` non-null: the new world is the `Initialize`
of the command at `p` applied to `w`. A null pointer and an empty supplier are
faults. Each returning `Initialize` adds exactly one evaluation to the trace. A
returning `Execute`, `End` or `IsFinished`, in any state, leaves the object as
it was and is that one call made on the selected child directly (so neither
the selector nor the supplier acts on the world); after `Initialize` every
sequence of such calls returns with the same active child. -/
theorem C9_child_resolved_once_by_Initialize_only (h : Heap W) (s : SelectCommand Key W)
    (σ : Runtime Key W) :
    (∀ selector : W → Key × W, s.m_selector = some selector →
      s.m_commands.lookup (selector σ.world).1 = none →
      SelectCommand.Initialize h s σ = Except.ok
        ({ s with m_selectedCommand := some (CommandPtr.allocated σ.printCommands.length) },
         { world := (selector σ.world).2
           printCommands := σ.printCommands ++ [keyMissMessage]
           trace := σ.trace ++ [Event.m_selector (selector σ.world).1,
             Event.find (selector σ.world).1 false, Event.newPrintCommand keyMissMessage] })) ∧
    (∀ (selector : W → Key × W) (c : Command W), s.m_selector = some selector →
      s.m_commands.lookup (selector σ.world).1 = some c →
      SelectCommand.Initialize h s σ = Except.ok
        ({ s with m_selectedCommand := some (CommandPtr.mapped (selector σ.world).1) },
         { world := c.Initialize (selector σ.world).2
           printCommands := σ.printCommands
           trace := σ.trace ++ [Event.m_selector (selector σ.world).1,
             Event.find (selector σ.world).1 true,
             Event.Initialize (CommandPtr.mapped (selector σ.world).1)] })) ∧
    (∀ (toRun : W → Option Nat × W) (p : Nat), s.m_selector = none →
      s.m_toRun = some toRun → (toRun σ.world).1 = some p →
      SelectCommand.Initialize h s σ = Except.ok
        ({ s with m_selectedCommand := some (CommandPtr.supplied p) },
         { world := (h.supplied p).Initialize (toRun σ.world).2
           printCommands := σ.printCommands
           trace := σ.trace ++ [Event.m_toRun (some p),
             Event.Initialize (CommandPtr.supplied p)] })) ∧
    (∀ toRun : W → Option Nat × W, s.m_selector = none → s.m_toRun = some toRun →
      (toRun σ.world).1 = none →
      SelectCommand.Initialize h s σ = Except.error Fault.invalid_pointer) ∧
    (s.m_selector = none → s.m_toRun = none →
      SelectCommand.Initialize h s σ = Except.error Fault.bad_function_call) ∧
    (∀ (s1 : SelectCommand Key W) (σ1 : Runtime Key W),
      SelectCommand.Initialize h s σ = Except.ok (s1, σ1) →
      resolutions σ1.trace = resolutions σ.trace + 1 ∧
      ∀ ops : List Op, ∃ (s2 : SelectCommand Key W) (σ2 : Runtime Key W),
        SelectCommand.calls h ops s1 σ1 = Except.ok (s2, σ2) ∧
        s2.m_selectedCommand = s1.m_selectedCommand ∧
        resolutions σ2.trace = resolutions σ1.trace) ∧
    (∀ (op : Op) (t t1 : SelectCommand Key W) (τ τ1 : Runtime Key W),
      SelectCommand.call h op t τ = Except.ok (t1, τ1) →
        t1 = t ∧ resolutions τ1.trace = resolutions τ.trace ∧
        ∃ (p : CommandPtr Key) (c : Command W), t.m_selectedCommand = some p ∧
          deref h t τ p = some c ∧ τ1 = Command.call c p op τ) := by
  refine ⟨fun selector hsel hmiss => Initialize_key_miss h s σ selector hsel hmiss,
    fun selector c hsel hfound => Initialize_key_found h s σ selector c hsel hfound,
    fun toRun p hsel hrun hp => Initialize_supplied h s σ toRun p hsel hrun hp, ?_, ?_, ?_, ?_⟩
  · intro toRun hsel hrun hp
    simp [SelectCommand.Initialize, SelectCommand.initializeSelected, deref, hsel, hrun, hp]
  · intro hsel hrun
    simp [SelectCommand.Initialize, hsel, hrun]
  · intro s1 σ1 hinit
    obtain ⟨p, c, hs, hd, hres⟩ := Initialize_ok_resolved h s s1 σ σ1 hinit
    refine ⟨hres, ?_⟩
    intro ops
    obtain ⟨σ2, evs, hc, ht, _, _, hz, _⟩ := resolved_after h s1 σ1 p c hs hd ops
    exact ⟨s1, σ2, hc, rfl, by rw [ht, resolutions_append, hz, Nat.add_zero]⟩
  · intro op t t1 τ τ1 hc
    obtain ⟨h1, h2⟩ := call_keeps_selection h op t t1 τ τ1 hc
    exact ⟨h1, h2, call_ok_resolved h op t t1 τ τ1 hc⟩

/-- Witness of C9: the example whose selector writes "selector" on the console
and gives "fwd". After `Initialize` the console holds one "selector" line and
the line of `Fwd.Initialize`; after `Execute`, `IsFinished`, `End(false)` it
holds the lines of `Fwd` only in addition. -/
theorem C9_witness :
    ∃ (s1 : SelectCommand String (List String)) (σ1 σ2 : Runtime String (List String)),
      SelectCommand.Initialize demoHeap (demoSelectLogging "fwd") demoRuntime =
        Except.ok (s1, σ1) ∧
      σ1.world = ["selector", "Fwd.Initialize"] ∧
      s1.m_selectedCommand = some (CommandPtr.mapped "fwd") ∧
      resolutions σ1.trace = resolutions demoRuntime.trace + 1 ∧
      SelectCommand.calls demoHeap [Op.Execute, Op.IsFinished, Op.End false] s1 σ1 =
        Except.ok (s1, σ2) ∧
      σ2.world = ["selector", "Fwd.Initialize", "Fwd.Execute", "Fwd.End"] := by
  have hfound : List.lookup ((fun console : List String =>
      ("fwd", console ++ ["selector"])) demoRuntime.world).1
      (demoSelectLogging "fwd").m_commands = some (demoCommand "Fwd") := by
    simp [demoSelectLogging_commands, List.lookup]
  have hall := C9_child_resolved_once_by_Initialize_only demoHeap (demoSelectLogging "fwd")
    demoRuntime
  have hinit := hall.2.1 (fun console => ("fwd", console ++ ["selector"]))
    (demoCommand "Fwd") rfl hfound
  have hd : deref demoHeap
      { demoSelectLogging "fwd" with m_selectedCommand := some (CommandPtr.mapped "fwd") }
      { world := (demoCommand "Fwd").Initialize ["selector"]
        printCommands := []
        trace := [Event.m_selector "fwd", Event.find "fwd" true,
          Event.Initialize (CommandPtr.mapped "fwd")] }
      (CommandPtr.mapped "fwd") = some (demoCommand "Fwd") := by
    simp [deref, demoSelectLogging_commands, List.lookup]
  refine ⟨_, _, _, hinit, ?_, rfl, (hall.2.2.2.2.2.1 _ _ hinit).1,
    calls_resolved demoHeap _ _ (CommandPtr.mapped "fwd") (demoCommand "Fwd") rfl hd
      [Op.Execute, Op.IsFinished, Op.End false], ?_⟩
  · simp [demoCommand, demoRuntime]
  · simp [Command.calls, Command.call, demoCommand, demoRuntime]

/-- C10: after an `Initialize` that returned there are a pointer `p` and a
command `c` it points to such that, in the state reached by any sequence of
later calls (which is the state reached by making the same calls on `c`
directly), `Execute()` makes the one call `c.Execute()`, `End(b)` the one call
`c.End(b)` with the same `b`, and `IsFinished()` makes the one call
`c.IsFinished()` and gives back its result; the object itself is unchanged. -/
theorem C10_calls_delegate_to_resolved_child (h : Heap W) (s0 s : SelectCommand Key W)
    (σ0 σ : Runtime Key W) (hinit : SelectCommand.Initialize h s0 σ0 = Except.ok (s, σ)) :
    ∃ (p : CommandPtr Key) (c : Command W),
      s.m_selectedCommand = some p ∧ deref h s σ p = some c ∧
      ∀ ops : List Op,
        SelectCommand.calls h ops s σ = Except.ok (s, Command.calls c p ops σ) ∧
        ∀ σ2 : Runtime Key W, σ2 = Command.calls c p ops σ →
          SelectCommand.Execute h s σ2 = Except.ok
            (s, { σ2 with
              world := c.Execute σ2.world
              trace := σ2.trace ++ [Event.Execute p] }) ∧
          (∀ interrupted : Bool, SelectCommand.End h interrupted s σ2 = Except.ok
            (s, { σ2 with
              world := c.End interrupted σ2.world
              trace := σ2.trace ++ [Event.End p interrupted] })) ∧
          SelectCommand.IsFinished h s σ2 = Except.ok
            ((c.IsFinished σ2.world).1, s, { σ2 with
              world := (c.IsFinished σ2.world).2
              trace := σ2.trace ++ [Event.IsFinished p (c.IsFinished σ2.world).1] }) := by
  obtain ⟨p, c, hs, hd, _⟩ := Initialize_ok_resolved h s0 s σ0 σ hinit
  refine ⟨p, c, hs, hd, ?_⟩
  intro ops
  refine ⟨calls_resolved h s σ p c hs hd ops, ?_⟩
  intro σ2 h2
  have hd2 : deref h s σ2 p = some c := by
    rw [h2, deref_congr h s σ _ (Command_calls_trace c p ops σ).1 p]
    exact hd
  exact ⟨Execute_resolved h s σ2 p c hs hd2,
    fun interrupted => End_resolved h s σ2 p c hs hd2 interrupted,
    IsFinished_resolved h s σ2 p c hs hd2⟩

/-- Witness of C10: the example with the selector giving "rev"; after
`Initialize` and one `Execute`, the console shows the calls made on `Rev` and
`IsFinished` gives back what `Rev` reports. -/
theorem C10_witness :
    ∃ (s : SelectCommand String (List String)) (σ : Runtime String (List String))
      (p : CommandPtr String) (c : Command (List String)),
      SelectCommand.Initialize demoHeap (demoSelect "rev") demoRuntime = Except.ok (s, σ) ∧
      s.m_selectedCommand = some p ∧ deref demoHeap s σ p = some c ∧
      SelectCommand.calls demoHeap [Op.Execute] s σ =
        Except.ok (s, Command.calls c p [Op.Execute] σ) := by
  have hfound : List.lookup ((fun console : List String => ("rev", console))
      demoRuntime.world).1 (demoSelect "rev").m_commands = some (demoCommand "Rev") := by
    simp [demoSelect_commands, List.lookup]
  have hinit := Initialize_key_found demoHeap (demoSelect "rev") demoRuntime
    (fun console => ("rev", console)) (demoCommand "Rev") rfl hfound
  obtain ⟨p, c, h1, h2, h3⟩ := C10_calls_delegate_to_resolved_child demoHeap
    (demoSelect "rev") _ demoRuntime _ hinit
  exact ⟨_, _, p, c, hinit, h1, h2, (h3 [Op.Execute]).1⟩

theorem demoCommand_requirements_A : (demoCommand "A").GetRequirements = {1} := by
  simp [demoCommand]; decide

theorem demoCommand_requirements_Bb : (demoCommand "Bb").GetRequirements = {2} := by
  simp [demoCommand]; decide

theorem demoDuplicate_fields :
    demoDuplicate.m_commands = [("fwd", demoCommand "A")] ∧
    demoDuplicate.m_requirements = {1, 2} := by
  constructor
  · simp [demoDuplicate, SelectCommand.keyed, SelectCommand.blank, emplace, RequireUngrouped,
      demoCommand, List.lookup]
  · simp [demoDuplicate, SelectCommand.keyed, SelectCommand.blank, RequireUngrouped,
      demoCommand_requirements_A, demoCommand_requirements_Bb]
    rfl

/-- C11 at the failing input, the pairs `("fwd", A)` and `("fwd", Bb)` with `A`
requiring subsystem 1 and `Bb` subsystem 2: the mapping keeps `A` alone, whose
requirements are `{1}`, and the requirement set of the `SelectCommand` is
`{1, 2}`: it still holds the requirement of the command that was dropped. -/
theorem C11_duplicate_key_keeps_requirements_of_dropped_command :
    demoDuplicate.m_commands.map (fun command => (command.1, command.2.GetRequirements)) =
      [("fwd", {1})] ∧
    mappingRequirements demoDuplicate = {1} ∧
    demoDuplicate.m_requirements = {1, 2} ∧
    demoDuplicate.m_requirements ≠ ∅ ∪ mappingRequirements demoDuplicate := by
  obtain ⟨hc, hr⟩ := demoDuplicate_fields
  have hm : mappingRequirements demoDuplicate = {1} := by
    simp [mappingRequirements, hc, demoCommand_requirements_A]
  refine ⟨by simp [hc, demoCommand_requirements_A], hm, hr, ?_⟩
  rw [hr, hm]
  decide

/-- What the two loops of the keyed constructors leave in the fields the second
loop does not write, and in `m_runsWhenDisabled`. -/
theorem keyed_loop_fields (commands : List (Key × Command W)) (s : SelectCommand Key W) :
    (commands.foldl
      (fun (s : SelectCommand Key W) (command : Key × Command W) =>
        { s with
          m_requirements := s.m_requirements ∪ command.2.GetRequirements
          m_runsWhenDisabled := s.m_runsWhenDisabled && command.2.RunsWhenDisabled
          m_commands := emplace s.m_commands command.1 command.2 }) s).m_selector =
        s.m_selector ∧
    (commands.foldl
      (fun (s : SelectCommand Key W) (command : Key × Command W) =>
        { s with
          m_requirements := s.m_requirements ∪ command.2.GetRequirements
          m_runsWhenDisabled := s.m_runsWhenDisabled && command.2.RunsWhenDisabled
          m_commands := emplace s.m_commands command.1 command.2 }) s).m_selectedCommand =
        s.m_selectedCommand ∧
    (commands.foldl
      (fun (s : SelectCommand Key W) (command : Key × Command W) =>
        { s with
          m_requirements := s.m_requirements ∪ command.2.GetRequirements
          m_runsWhenDisabled := s.m_runsWhenDisabled && command.2.RunsWhenDisabled
          m_commands := emplace s.m_commands command.1 command.2 }) s).m_runsWhenDisabled =
        (s.m_runsWhenDisabled && commands.all (fun command => command.2.RunsWhenDisabled)) := by
  induction commands generalizing s with
  | nil => simp
  | cons c cs ih =>
    simp only [List.foldl_cons, List.all_cons]
    obtain ⟨h1, h2, h3⟩ := ih
      { s with
        m_requirements := s.m_requirements ∪ c.2.GetRequirements
        m_runsWhenDisabled := s.m_runsWhenDisabled && c.2.RunsWhenDisabled
        m_commands := emplace s.m_commands c.1 c.2 }
    exact ⟨h1, h2, by rw [h3, Bool.and_assoc]⟩

theorem keyed_selector (selector : Option (W → Key × W)) (commands : List (Key × Command W)) :
    (SelectCommand.keyed selector commands).m_selector = selector ∧
    (SelectCommand.keyed selector commands).m_selectedCommand = none := by
  unfold SelectCommand.keyed
  split_ifs
  · exact ⟨(keyed_loop_fields commands _).1, (keyed_loop_fields commands _).2.1⟩
  · exact ⟨rfl, rfl⟩

/-- `Initialize` writes `m_selectedCommand` and no other data member. -/
theorem Initialize_frame (h : Heap W) (s s1 : SelectCommand Key W) (σ σ1 : Runtime Key W)
    (hinit : SelectCommand.Initialize h s σ = Except.ok (s1, σ1)) :
    s1 = { s with m_selectedCommand := s1.m_selectedCommand } := by
  cases hsel : s.m_selector with
  | some selector =>
    cases hl : s.m_commands.lookup (selector σ.world).1 with
    | none =>
      rw [Initialize_key_miss h s σ selector hsel hl] at hinit
      injection hinit with hinit
      injection hinit with h1 h2
      subst h1
      simp [hsel]
    | some c =>
      rw [Initialize_key_found h s σ selector c hsel hl] at hinit
      injection hinit with hinit
      injection hinit with h1 h2
      subst h1
      simp [hsel]
  | none =>
    cases hrun : s.m_toRun with
    | none => simp [SelectCommand.Initialize, hsel, hrun] at hinit
    | some toRun =>
      cases hp : (toRun σ.world).1 with
      | none =>
        simp [SelectCommand.Initialize, SelectCommand.initializeSelected, deref, hsel, hrun,
          hp] at hinit
      | some p =>
        rw [Initialize_supplied h s σ toRun p hsel hrun hp] at hinit
        injection hinit with hinit
        injection hinit with h1 h2
        subst h1
        simp [hsel, hrun]

/-- C12 at the failing input, a supplier-mode `SelectCommand` whose supplier
gives a command that requires subsystem 8 and does not run when disabled: after
`Initialize` has resolved that command as the active child, the requirement
set of the `SelectCommand` does not hold 8 and `RunsWhenDisabled()` is `true`. -/
theorem C12_supplier_mode_ignores_child_requirements_and_flag :
    ∃ (s1 : SelectCommand String (List String)) (σ1 : Runtime String (List String)),
      SelectCommand.Initialize demoHeapEnabledOnly (demoSupplied (some 0)) demoRuntime =
        Except.ok (s1, σ1) ∧
      s1.m_selectedCommand = some (CommandPtr.supplied 0) ∧
      deref demoHeapEnabledOnly s1 σ1 (CommandPtr.supplied 0) =
        some (demoHeapEnabledOnly.supplied 0) ∧
      (8 ∈ (demoHeapEnabledOnly.supplied 0).GetRequirements ∧ 8 ∉ s1.m_requirements) ∧
      ((demoHeapEnabledOnly.supplied 0).RunsWhenDisabled = false ∧
        s1.RunsWhenDisabled = true) := by
  refine ⟨_, _, Initialize_supplied demoHeapEnabledOnly (demoSupplied (some 0)) demoRuntime
    (fun console => (some 0, console)) 0 rfl rfl rfl, rfl, rfl, ⟨?_, ?_⟩, ⟨rfl, rfl⟩⟩
  · simp [demoHeapEnabledOnly, demoCommand]
    decide
  · simp [demoSupplied, SelectCommand.fromSupplier, SelectCommand.blank]

/-- C13 at the failing input, the keyed `SelectCommand` built from the ungrouped
commands `Fwd` and `Rev`: after construction both commands held in the mapping
still have their grouped flag `false`. -/
theorem C13_keyed_constructor_leaves_commands_ungrouped :
    (demoSelect "fwd").m_commands.map (fun command => (command.1, command.2.IsGrouped)) =
      [("fwd", false), ("rev", false)] ∧
    ([("fwd", demoCommand "Fwd"), ("rev", demoCommand "Rev")].map
      (fun command => (command.1, command.2.IsGrouped)) =
      [("fwd", false), ("rev", false)]) := by
  constructor
  · rw [demoSelect_commands]
    rfl
  · rfl

theorem keyed_of_rejected (selector : Option (W → Key × W))
    (commands : List (Key × Command W))
    (hrej : ∃ command ∈ commands, RequireUngrouped command.2 = false) :
    SelectCommand.keyed selector commands = SelectCommand.blank selector none := by
  unfold SelectCommand.keyed
  rw [if_neg]
  intro hall
  obtain ⟨command, hmem, hfalse⟩ := hrej
  have := List.all_eq_true.mp hall command hmem
  rw [hfalse] at this
  cases this

theorem keyed_of_accepted (selector : Option (W → Key × W))
    (commands : List (Key × Command W))
    (hun : ∀ command ∈ commands, command.2.IsGrouped = false) :
    SelectCommand.keyed selector commands =
      commands.foldl
        (fun (s : SelectCommand Key W) (command : Key × Command W) =>
          { s with
            m_requirements := s.m_requirements ∪ command.2.GetRequirements
            m_runsWhenDisabled := s.m_runsWhenDisabled && command.2.RunsWhenDisabled
            m_commands := emplace s.m_commands command.1 command.2 })
        (SelectCommand.blank selector none) := by
  unfold SelectCommand.keyed
  rw [if_pos]
  apply List.all_eq_true.mpr
  intro command hmem
  simp [RequireUngrouped, hun command hmem]

/-- C14: when `RequireUngrouped` fails on at least one supplied command (one that
is already grouped), wherever it stands in the list, the constructor returns
before its second loop: the mapping is empty, the requirement set is the empty
one it started with, `RunsWhenDisabled()` is `true`. With a selector `sel`, every
`Initialize` on that object, whatever `m_selectedCommand` holds by then and
whatever key the selector gives, takes the key-miss path. -/
theorem C14_keyed_construction_incorporates_all_or_nothing
    (selector : Option (W → Key × W)) (commands : List (Key × Command W))
    (hrej : ∃ command ∈ commands, RequireUngrouped command.2 = false) :
    (SelectCommand.keyed selector commands).m_commands = [] ∧
    (SelectCommand.keyed selector commands).m_requirements = ∅ ∧
    (SelectCommand.keyed selector commands).RunsWhenDisabled = true ∧
    (∀ command ∈ commands, command.2.IsGrouped = true → RequireUngrouped command.2 = false) ∧
    (∀ (sel : W → Key × W), selector = some sel →
      ∀ (h : Heap W) (m : Option (CommandPtr Key)) (σ : Runtime Key W),
        SelectCommand.Initialize h
          { SelectCommand.keyed selector commands with m_selectedCommand := m } σ =
        Except.ok
          ({ SelectCommand.keyed selector commands with
              m_selectedCommand := some (CommandPtr.allocated σ.printCommands.length) },
           { world := (sel σ.world).2
             printCommands := σ.printCommands ++ [keyMissMessage]
             trace := σ.trace ++ [Event.m_selector (sel σ.world).1,
               Event.find (sel σ.world).1 false, Event.newPrintCommand keyMissMessage] })) := by
  have hk := keyed_of_rejected selector commands hrej
  refine ⟨by rw [hk]; rfl, by rw [hk]; rfl, by rw [hk]; rfl, ?_, ?_⟩
  · intro command _ hg
    simp [RequireUngrouped, hg]
  · intro sel hsel h m σ
    rw [hk]
    exact Initialize_key_miss h _ σ sel (by rw [hsel]; rfl) rfl

/-- Witness of C14: `Fwd` ungrouped in first place, `Rev` already grouped in
second place; nothing is incorporated and a selector giving "fwd" misses. -/
theorem C14_witness :
    (SelectCommand.keyed (some (fun console : List String => ("fwd", console)))
      [("fwd", demoCommand "Fwd"),
       ("rev", { demoCommand "Rev" with IsGrouped := true })]).m_commands = [] ∧
    (SelectCommand.keyed (some (fun console : List String => ("fwd", console)))
      [("fwd", demoCommand "Fwd"),
       ("rev", { demoCommand "Rev" with IsGrouped := true })]).m_requirements = ∅ ∧
    (SelectCommand.keyed (some (fun console : List String => ("fwd", console)))
      [("fwd", demoCommand "Fwd"),
       ("rev", { demoCommand "Rev" with IsGrouped := true })]).RunsWhenDisabled = true :=
  have hrej : ∃ command ∈ [("fwd", demoCommand "Fwd"),
      ("rev", { demoCommand "Rev" with IsGrouped := true })],
      RequireUngrouped command.2 = false :=
    ⟨("rev", { demoCommand "Rev" with IsGrouped := true }), by simp, rfl⟩
  ⟨(C14_keyed_construction_incorporates_all_or_nothing _ _ hrej).1,
   (C14_keyed_construction_incorporates_all_or_nothing _ _ hrej).2.1,
   (C14_keyed_construction_incorporates_all_or_nothing _ _ hrej).2.2.1⟩

/-- C15: for a keyed `SelectCommand` built from commands none of which is
grouped, `RunsWhenDisabled()` is `true` exactly when `RunsWhenDisabled()` is `true`
for every supplied command (so `true` for the empty list); an `Initialize` that
returns does not change it, whichever child it selects; no `Execute`, `End` or
`IsFinished` call changes it, in any state; and it has the constructed value
after `Initialize` and any sequence of such calls. -/
theorem C15_RunsWhenDisabled_is_conjunction_fixed_at_construction
    (selector : Option (W → Key × W)) (commands : List (Key × Command W))
    (hun : ∀ command ∈ commands, command.2.IsGrouped = false) :
    ((SelectCommand.keyed selector commands).RunsWhenDisabled = true ↔
      ∀ command ∈ commands, command.2.RunsWhenDisabled = true) ∧
    (∀ (h : Heap W) (σ σ1 : Runtime Key W) (s1 : SelectCommand Key W),
      SelectCommand.Initialize h (SelectCommand.keyed selector commands) σ =
        Except.ok (s1, σ1) →
      s1.RunsWhenDisabled = (SelectCommand.keyed selector commands).RunsWhenDisabled ∧
      ∀ ops : List Op, ∃ (s2 : SelectCommand Key W) (σ2 : Runtime Key W),
        SelectCommand.calls h ops s1 σ1 = Except.ok (s2, σ2) ∧
        s2.RunsWhenDisabled = (SelectCommand.keyed selector commands).RunsWhenDisabled) ∧
    (∀ (h : Heap W) (op : Op) (t t1 : SelectCommand Key W) (τ τ1 : Runtime Key W),
      SelectCommand.call h op t τ = Except.ok (t1, τ1) →
        t1.RunsWhenDisabled = t.RunsWhenDisabled) := by
  refine ⟨?_, ?_, ?_⟩
  · rw [keyed_of_accepted selector commands hun]
    unfold SelectCommand.RunsWhenDisabled
    rw [(keyed_loop_fields commands _).2.2]
    simp [SelectCommand.blank, List.all_eq_true]
  · intro h σ σ1 s1 hinit
    have hf := Initialize_frame h _ s1 σ σ1 hinit
    have hr : s1.RunsWhenDisabled =
        (SelectCommand.keyed selector commands).RunsWhenDisabled := by
      rw [hf]; rfl
    refine ⟨hr, ?_⟩
    intro ops
    obtain ⟨p, c, hs, hd, _⟩ := Initialize_ok_resolved h _ s1 σ σ1 hinit
    obtain ⟨σ2, _, hc, _⟩ := resolved_after h s1 σ1 p c hs hd ops
    exact ⟨s1, σ2, hc, hr⟩
  · intro h op t t1 τ τ1 hc
    rw [(call_keeps_selection h op t t1 τ τ1 hc).1]

/-- Witness of C15: the example of the specification (both commands run when
disabled) and the same list with `Rev` not running when disabled. -/
theorem C15_witness :
    (demoSelect "fwd").RunsWhenDisabled = true ∧
    ¬ ((SelectCommand.keyed (some (fun console : List String => ("fwd", console)))
      [("fwd", demoCommand "Fwd"),
       ("rev", { demoCommand "Rev" with RunsWhenDisabled := false })]).RunsWhenDisabled
        = true) := by
  constructor
  · exact (C15_RunsWhenDisabled_is_conjunction_fixed_at_construction
      (some (fun console : List String => ("fwd", console)))
      [("fwd", demoCommand "Fwd"), ("rev", demoCommand "Rev")]
      (by simp [demoCommand])).1.mpr (by simp [demoCommand])
  · intro hr
    have hall := (C15_RunsWhenDisabled_is_conjunction_fixed_at_construction
      (some (fun console : List String => ("fwd", console)))
      [("fwd", demoCommand "Fwd"),
       ("rev", { demoCommand "Rev" with RunsWhenDisabled := false })]
      (by simp [demoCommand])).1.mp hr
    have := hall ("rev", { demoCommand "Rev" with RunsWhenDisabled := false }) (by simp)
    simp at this

/-- C16: the constructors leave `m_selectedCommand` undefined, and in that state
`Execute`, `End` and `IsFinished` end in the undefined-child fault. On a
`SelectCommand` with a non-empty selector `Initialize` always returns, whatever
key the selector gives, with `m_selectedCommand` defined, and every later
sequence of `Execute`/`End`/`IsFinished` calls returns (no fault, so not the
undefined-child one). The same holds without selector when the supplier is
non-empty and gives a non-null pointer. -/
theorem C16_active_child_defined_after_Initialize (h : Heap W) (s : SelectCommand Key W)
    (σ : Runtime Key W) :
    ((∀ (selector : Option (W → Key × W)) (commands : List (Key × Command W)),
        (SelectCommand.keyed selector commands).m_selectedCommand = none) ∧
      (∀ toRun : Option (W → Option Nat × W),
        (SelectCommand.fromSupplier toRun : SelectCommand Key W).m_selectedCommand = none) ∧
      (s.m_selectedCommand = none →
        SelectCommand.Execute h s σ = Except.error Fault.undefined_child ∧
        (∀ b, SelectCommand.End h b s σ = Except.error Fault.undefined_child) ∧
        SelectCommand.IsFinished h s σ = Except.error Fault.undefined_child)) ∧
    (∀ selector : W → Key × W, s.m_selector = some selector →
      ∃ (s1 : SelectCommand Key W) (σ1 : Runtime Key W) (p : CommandPtr Key),
        SelectCommand.Initialize h s σ = Except.ok (s1, σ1) ∧
        s1.m_selectedCommand = some p ∧
        ∀ ops : List Op, ∃ σ2 : Runtime Key W,
          SelectCommand.calls h ops s1 σ1 = Except.ok (s1, σ2)) ∧
    (∀ (toRun : W → Option Nat × W) (q : Nat), s.m_selector = none →
      s.m_toRun = some toRun → (toRun σ.world).1 = some q →
      ∃ (s1 : SelectCommand Key W) (σ1 : Runtime Key W) (p : CommandPtr Key),
        SelectCommand.Initialize h s σ = Except.ok (s1, σ1) ∧
        s1.m_selectedCommand = some p ∧
        ∀ ops : List Op, ∃ σ2 : Runtime Key W,
          SelectCommand.calls h ops s1 σ1 = Except.ok (s1, σ2)) := by
  have key : ∀ (s1 : SelectCommand Key W) (σ1 : Runtime Key W),
      SelectCommand.Initialize h s σ = Except.ok (s1, σ1) →
      ∃ (s1 : SelectCommand Key W) (σ1 : Runtime Key W) (p : CommandPtr Key),
        SelectCommand.Initialize h s σ = Except.ok (s1, σ1) ∧
        s1.m_selectedCommand = some p ∧
        ∀ ops : List Op, ∃ σ2 : Runtime Key W,
          SelectCommand.calls h ops s1 σ1 = Except.ok (s1, σ2) := by
    intro s1 σ1 hinit
    obtain ⟨p, c, hs, hd, _⟩ := Initialize_ok_resolved h s s1 σ σ1 hinit
    refine ⟨s1, σ1, p, hinit, hs, ?_⟩
    intro ops
    obtain ⟨σ2, _, hc, _⟩ := resolved_after h s1 σ1 p c hs hd ops
    exact ⟨σ2, hc⟩
  refine ⟨⟨fun selector commands => (keyed_selector selector commands).2, fun _ => rfl, ?_⟩,
    ?_, ?_⟩
  · intro hnone
    simp [SelectCommand.Execute, SelectCommand.End, SelectCommand.IsFinished, hnone]
  · intro selector hsel
    cases hl : s.m_commands.lookup (selector σ.world).1 with
    | none => exact key _ _ (Initialize_key_miss h s σ selector hsel hl)
    | some c => exact key _ _ (Initialize_key_found h s σ selector c hsel hl)
  · intro toRun q hsel hrun hq
    exact key _ _ (Initialize_supplied h s σ toRun q hsel hrun hq)

/-- Witness of C16: the example of the specification before `Initialize`, and
after it with the selector giving "left" (a key the mapping does not have). -/
theorem C16_witness :
    SelectCommand.Execute demoHeap (demoSelect "left") demoRuntime =
      Except.error Fault.undefined_child ∧
    (∃ (s1 : SelectCommand String (List String)) (σ1 : Runtime String (List String))
      (p : CommandPtr String),
      SelectCommand.Initialize demoHeap (demoSelect "left") demoRuntime = Except.ok (s1, σ1) ∧
      s1.m_selectedCommand = some p ∧
      ∀ ops : List Op, ∃ σ2 : Runtime String (List String),
        SelectCommand.calls demoHeap ops s1 σ1 = Except.ok (s1, σ2)) ∧
    (∃ (s1 : SelectCommand String (List String)) (σ1 : Runtime String (List String))
      (p : CommandPtr String),
      SelectCommand.Initialize demoHeap (demoSupplied (some 3)) demoRuntime =
        Except.ok (s1, σ1) ∧
      s1.m_selectedCommand = some p ∧
      ∀ ops : List Op, ∃ σ2 : Runtime String (List String),
        SelectCommand.calls demoHeap ops s1 σ1 = Except.ok (s1, σ2)) :=
  ⟨((C16_active_child_defined_after_Initialize demoHeap (demoSelect "left") demoRuntime).1.2.2
      (keyed_selector _ _).2).1,
   (C16_active_child_defined_after_Initialize demoHeap (demoSelect "left") demoRuntime).2.1
      (fun console => ("left", console)) rfl,
   (C16_active_child_defined_after_Initialize demoHeap (demoSupplied (some 3)) demoRuntime).2.2
      (fun console => (some 3, console)) 3 rfl rfl rfl⟩

end frc2
